import Mathlib

/-!
# Image-Captioning front-end script (`src/assets/script.js`)

A shallow embedding of the page script: the browser's timer queue, the DOM
store the binders read and write, the listeners and timers they register, and
the export helper.  Time is counted in the unit `setTimeout` takes.
-/

namespace ImageCaptioning

/-! ## Timers (`setTimeout` / `clearTimeout`) -/

/-- One pending timer: its handle, the time it is due, and the closure to run. -/
structure Timer (κ : Type) where
  id : Nat
  fireAt : Nat
  callback : κ
deriving DecidableEq, Repr

/-- The timer queue of the event loop.  `pending` is kept ordered by due time,
timers with the same due time in creation order. -/
structure TimerHeap (κ : Type) where
  nextId : Nat
  pending : List (Timer κ)
deriving DecidableEq, Repr

/-- Queue position of a new timer: behind every timer that is due no later. -/
def insertTimer {κ : Type} (t : Timer κ) : List (Timer κ) → List (Timer κ)
  | [] => [t]
  | u :: us => if u.fireAt ≤ t.fireAt then u :: insertTimer t us else t :: u :: us

/-- The empty queue; handles are positive, as in the browser. -/
def TimerHeap.empty {κ : Type} : TimerHeap κ := { nextId := 1, pending := [] }

/-- The delay a timer really gets: the platform converts the argument of
`setTimeout` to a 32-bit signed integer (modulo 2^32, the upper half read as
negative) and takes a negative delay as 0. -/
def timerDelay (delay : Nat) : Nat :=
  if delay % 4294967296 < 2147483648 then delay % 4294967296 else 0

/-- `setTimeout(callback, delay)` called at time `now`: returns the handle. -/
def TimerHeap.setTimeout {κ : Type} (h : TimerHeap κ) (now : Nat) (callback : κ) (delay : Nat) :
    Nat × TimerHeap κ :=
  (h.nextId,
    { nextId := h.nextId + 1
      pending := insertTimer
        { id := h.nextId, fireAt := now + timerDelay delay, callback := callback } h.pending })

/-- `clearTimeout(handle)`; `none` is `undefined`, for which nothing happens. -/
def TimerHeap.clearTimeout {κ : Type} (h : TimerHeap κ) (handle : Option Nat) : TimerHeap κ :=
  match handle with
  | none => h
  | some i => { h with pending := h.pending.filter (fun t => t.id != i) }

/-- The timers due at time `t`, in firing order. -/
def TimerHeap.due {κ : Type} (h : TimerHeap κ) (t : Nat) : List (Timer κ) :=
  h.pending.filter (fun u => decide (u.fireAt ≤ t))

/-- The queue once the timers due at time `t` have been taken out. -/
def TimerHeap.later {κ : Type} (h : TimerHeap κ) (t : Nat) : TimerHeap κ :=
  { h with pending := h.pending.filter (fun u => !decide (u.fireAt ≤ t)) }

/-! ## `debounce` (script.js 170-179) -/

/-- One call, at time `now`, of the function returned by `debounce(func, wait)`,
with `this = context` and `arguments = args`.  `timeout` is the closure
variable (`none` while it is still `undefined`); `thunk context args` is the
arrow function `() => func.apply(context, args)`.  Returns the new value of
`timeout` and the new timer queue. -/
def debounce {C A κ : Type} (thunk : C → A → κ) (wait : Nat)
    (timeout : Option Nat) (heap : TimerHeap κ) (now : Nat) (context : C) (args : A) :
    Option Nat × TimerHeap κ :=
  let cleared := heap.clearTimeout timeout
  let scheduled := cleared.setTimeout now (thunk context args) wait
  (some scheduled.1, scheduled.2)

/-- A debounced function under observation: `func` is any function, and each of
its invocations is recorded with the time, the `this` value and the arguments
it was applied to. -/
structure Debounced (C A : Type) where
  wait : Nat
  now : Nat
  timeout : Option Nat
  heap : TimerHeap (C × A)
  invoked : List (Nat × C × A)
deriving DecidableEq, Repr

namespace Debounced

variable {C A : Type}

/-- State right after `debounce(func, wait)` returned. -/
def create (wait : Nat) : Debounced C A :=
  { wait := wait, now := 0, timeout := none, heap := TimerHeap.empty, invoked := [] }

/-- A due timer fires: `func.apply(context, args)` runs at the timer's time. -/
def fire (s : Debounced C A) (t : Timer (C × A)) : Debounced C A :=
  { s with now := max s.now t.fireAt
           invoked := s.invoked ++ [(t.fireAt, t.callback.1, t.callback.2)] }

/-- Let time pass until `t`: every timer due by then fires, in order. -/
def advance (s : Debounced C A) (t : Nat) : Debounced C A :=
  let fired := (s.heap.due t).foldl fire { s with heap := s.heap.later t }
  { fired with now := max fired.now t }

/-- The debounced function is called at time `t`. -/
def call (s : Debounced C A) (c : Nat × C × A) : Debounced C A :=
  let s1 := s.advance c.1
  let r := debounce Prod.mk s1.wait s1.timeout s1.heap s1.now c.2.1 c.2.2
  { s1 with timeout := r.1, heap := r.2 }

/-- A whole sequence of calls, each given with its time. -/
def run (s : Debounced C A) (calls : List (Nat × C × A)) : Debounced C A :=
  calls.foldl call s

end Debounced

/-- A burst: call times do not decrease and each gap is shorter than `wait`. -/
def Burst {C A : Type} (wait : Nat) : List (Nat × C × A) → Prop
  | [] => True
  | [_] => True
  | a :: b :: rest => (a.1 ≤ b.1 ∧ b.1 < a.1 + wait) ∧ Burst wait (b :: rest)

/-- Whether a sequence of calls is a burst can be computed. -/
def Burst.decide {C A : Type} (wait : Nat) : (calls : List (Nat × C × A)) → Decidable (Burst wait calls)
  | [] => isTrue trivial
  | [_] => isTrue trivial
  | a :: b :: rest =>
    match Nat.decLe a.1 b.1, Nat.decLt b.1 (a.1 + wait), Burst.decide wait (b :: rest) with
    | isTrue h1, isTrue h2, isTrue h3 => isTrue ⟨⟨h1, h2⟩, h3⟩
    | isFalse h1, _, _ => isFalse (fun h => h1 h.1.1)
    | _, isFalse h2, _ => isFalse (fun h => h2 h.1.2)
    | _, _, isFalse h3 => isFalse (fun h => h3 h.2)

instance {C A : Type} (wait : Nat) (calls : List (Nat × C × A)) : Decidable (Burst wait calls) :=
  Burst.decide wait calls

/-- The state a burst leaves behind: one pending timer, for the latest call. -/
def Armed {C A : Type} (s : Debounced C A) (w : Nat) (c : Nat × C × A) : Prop :=
  s.wait = w ∧ s.now = c.1 ∧ s.invoked = [] ∧
    ∃ i, s.timeout = some i ∧ s.heap.nextId = i + 1 ∧
      s.heap.pending = [{ id := i, fireAt := c.1 + w, callback := (c.2.1, c.2.2) }]

/-! ## The page: DOM store, listeners, console -/

/-- Index of a node in the store. -/
abbrev NodeId := Nat

/-- A child of an element: a text node, an element of the store, or a run
of markup that was assigned through `innerHTML` and stands for the nodes the
HTML parser makes of it, which the script never addresses one by one. -/
inductive Child
  | text (data : String)
  | element (n : NodeId)
  | markup (html : String)
deriving DecidableEq, Repr

/-- An element node.  `localName` is the lower-case tag name; `id` is the
empty string when the element has no id; `childNodes` are the children in
order and `parentNode` is the parent, `none` for the root and for a node
outside the document. -/
structure Element where
  localName : String
  id : String
  classList : List String
  attributes : List (String × String)
  childNodes : List Child
  parentNode : Option NodeId
deriving DecidableEq, Repr, Inhabited

/-- Exceptions the script can meet. -/
inductive JSError
  | typeError (message : String)
  | notFoundError
  | syntaxError (selector : String)
  | rejected (reason : String)
deriving DecidableEq, Repr

/-- A JavaScript value as far as an argument of `exportResults` needs it. -/
inductive JSValue
  | undefined
  | null
  | boolean (b : Bool)
  | number (n : Int)
  | string (s : String)
deriving DecidableEq, Repr

/-- Where a listener is bound: the window or a node. -/
inductive Target
  | window
  | node (n : NodeId)
deriving DecidableEq, Repr

/-- One file of a file input's `files` list. -/
structure FileInfo where
  type : String
  size : Nat
deriving DecidableEq, Repr

/-- The event object, as far as the handlers read it (`e.target.files`). -/
structure Event where
  files : List FileInfo
deriving DecidableEq, Repr

/-- The closures the script passes to `addEventListener`, each with the
variables it captures. -/
inductive Handler
  | dragover (fileUploader : NodeId)
  | dragleave (fileUploader : NodeId)
  | drop (fileUploader : NodeId)
  | anchorClick
  | resize
  | mouseenter (tooltip : NodeId)
  | mouseleave (tooltip : NodeId)
  | copyClick (button : NodeId)
  | fileChange
  | buttonClick (button : NodeId)
deriving DecidableEq, Repr

/-- One `addEventListener` registration. -/
structure Listener where
  target : Target
  type : String
  handler : Handler
deriving DecidableEq, Repr

/-- The closures the script passes to `setTimeout`. -/
inductive Callback
  | restoreLabel (button : NodeId) (originalText : String)
  | applyResize (context : Target) (args : Event)
  | release (a : NodeId) (url : String)
deriving DecidableEq, Repr

/-- A property value of an analytics payload. -/
inductive Field
  | null
  | str (s : String)
  | num (n : Nat)
deriving DecidableEq, Repr

/-- An analytics payload: property names with their values, in order. -/
abbrev Record := List (String × Field)

/-- One argument of a console call. -/
inductive Arg
  | text (s : String)
  | record (r : Record)
  | error (e : JSError)
deriving DecidableEq, Repr

/-- Console method. -/
inductive Level
  | log
  | error
deriving DecidableEq, Repr

/-- One console call. -/
structure ConsoleEntry where
  level : Level
  args : List Arg
deriving DecidableEq, Repr

/-- The object given to `new Blob([content], { type })`. -/
structure Blob where
  content : String
  type : String
deriving DecidableEq, Repr

/-- A file the browser was made to save. -/
structure Download where
  filename : String
  content : String
  type : String
deriving DecidableEq, Repr

/-- The page as the script sees it.  `elems` holds the nodes of the loaded
document in document order, then the nodes the script created; `timeout` is
the closure variable of `debounce(handleResize, 200)`; `now` is the clock,
which timers are taken to follow exactly; `pendingWrites` are the clipboard
writes that have neither resolved nor been rejected yet; `uncaught` collects
the exceptions that escaped a listener or a timer callback. -/
structure World where
  elems : List Element
  documentElement : NodeId
  body : NodeId
  title : String
  pathname : String
  now : Nat
  listeners : List Listener
  timers : TimerHeap Callback
  timeout : Option Nat
  console : List ConsoleEntry
  pendingWrites : List (NodeId × String)
  clipboard : Option String
  objectURLs : List (String × Blob)
  minted : Nat
  downloads : List Download
  scrolls : List Int
  uncaught : List JSError
deriving DecidableEq, Repr

/-- What the browser decides and the script only consumes. -/
structure Platform where
  /-- Result of `window.matchMedia('(prefers-color-scheme: dark)').matches`. -/
  prefersDark : Bool
  /-- Rendering `new Date().toISOString()` of a time value. -/
  toISOString : Nat → String
  /-- The selector engine on selector text that is only known at run time:
  the first match, none, or a `SyntaxError`. -/
  selectorEngine : List Element → String → Except JSError (Option NodeId)
  /-- Layout: `offsetTop` of a node. -/
  offsetTop : NodeId → Int
  /-- The text of the n-th URL that `URL.createObjectURL` hands out. -/
  objectURL : Nat → String
  /-- The HTML parser: the text content of the nodes it makes of a run of
  markup inside an element with the given tag name. -/
  textOfMarkup : String → String → String
  /-- The HTML parser and serializer: the markup read back from the nodes
  the parser makes of a run of markup inside an element with the given tag
  name. -/
  reserialize : String → String → String
  /-- The HTML serializer: the markup of an element node with its subtree. -/
  outerHTML : List Element → NodeId → String

/-- The selectors written in the script. -/
inductive Selector
  | stFileUploader
  | fragmentAnchor
  | dataTooltip
  | dataCopy
  | fileInput
  | button
  | captionResultP
deriving DecidableEq, Repr

/-- A freshly loaded page: no listener, no timer, nothing logged. -/
def World.load (elems : List Element) (documentElement body : NodeId) (title pathname : String) :
    World :=
  { elems := elems, documentElement := documentElement, body := body, title := title,
    pathname := pathname, now := 0, listeners := [], timers := TimerHeap.empty, timeout := none,
    console := [], pendingWrites := [], clipboard := none, objectURLs := [], minted := 0,
    downloads := [], scrolls := [], uncaught := [] }

/-- Change the node at index `n`, if there is one. -/
def updateAt (f : Element → Element) : Nat → List Element → List Element
  | _, [] => []
  | 0, e :: es => f e :: es
  | n + 1, e :: es => e :: updateAt f n es

/-- Change one node of the page. -/
def World.update (w : World) (n : NodeId) (f : Element → Element) : World :=
  { w with elems := updateAt f n w.elems }

/-- `element.getAttribute(name)`; `none` is `null`. -/
def Element.getAttribute (e : Element) (name : String) : Option String :=
  e.attributes.lookup name

/-- `element.setAttribute(name, value)`, also what `a.href = ` and
`a.download = ` do to a new anchor. -/
def Element.setAttribute (e : Element) (name value : String) : Element :=
  { e with attributes := (e.attributes.filter (fun p => p.1 != name)) ++ [(name, value)] }

/-- `classList.add(c)`. -/
def Element.addClass (e : Element) (c : String) : Element :=
  { e with classList := if c ∈ e.classList then e.classList else e.classList ++ [c] }

/-- `classList.remove(c)`. -/
def Element.removeClass (e : Element) (c : String) : Element :=
  { e with classList := e.classList.filter (fun d => d != c) }

/-- Whether the chain of parents starting at `start` reaches a node satisfying
`p`, looking at no more than `fuel` nodes. -/
def reaches (store : List Element) (p : NodeId → Element → Bool) : Nat → Option NodeId → Bool
  | 0, _ => false
  | _ + 1, none => false
  | fuel + 1, some n =>
    match store[n]? with
    | none => false
    | some e => p n e || reaches store p fuel e.parentNode

/-- Whether node `n` is in the document: it is the root or hangs below it. -/
def World.isConnected (w : World) (n : NodeId) : Bool :=
  reaches w.elems (fun m _ => m == w.documentElement) (w.elems.length + 1) (some n)

/-- Whether an element matches a selector of the script, the document tree
apart.  `'a[href^="#"]'`: an anchor whose `href` starts with `#`;
`'input[type="file"]'`: the value of `type` is compared without regard to
ASCII case, as in an HTML document. -/
def Selector.test (store : List Element) (s : Selector) (e : Element) : Bool :=
  match s with
  | .stFileUploader => "stFileUploader" ∈ e.classList
  | .fragmentAnchor =>
    e.localName == "a" &&
      (match e.getAttribute "href" with
       | none => false
       | some v => "#".data.isPrefixOf v.data)
  | .dataTooltip => (e.getAttribute "data-tooltip").isSome
  | .dataCopy => (e.getAttribute "data-copy").isSome
  | .fileInput =>
    e.localName == "input" &&
      (match e.getAttribute "type" with
       | none => false
       | some v => v.data.map Char.toLower == "file".data)
  | .button => e.localName == "button"
  | .captionResultP =>
    e.localName == "p" &&
      reaches store (fun _ a => decide ("caption-result" ∈ a.classList)) store.length e.parentNode

/-- `document.querySelectorAll(selector)`: the matching nodes of the document,
in document order. -/
def World.querySelectorAll (w : World) (s : Selector) : List NodeId :=
  (List.range w.elems.length).filter
    (fun n => match w.elems[n]? with
      | none => false
      | some e => w.isConnected n && s.test w.elems e)

/-- `document.querySelector(selector)`: the first match; `none` is `null`. -/
def World.querySelector (w : World) (s : Selector) : Option NodeId :=
  (w.querySelectorAll s).head?

/-- `document.createElement(name)`: a new node outside the document. -/
def World.createElement (w : World) (name : String) : NodeId × World :=
  (w.elems.length,
    { w with elems := w.elems ++ [{ localName := name, id := "", classList := [], attributes := [],
                                    childNodes := [], parentNode := none }] })

/-- `parent.appendChild(child)` for a child that has no parent yet, as
everywhere in the script: the child becomes the last child of `parent`. -/
def World.appendChild (w : World) (parent child : NodeId) : World :=
  let w := w.update child (fun e => { e with parentNode := some parent })
  w.update parent (fun e => { e with childNodes := e.childNodes ++ [.element child] })

/-- Node `child` leaves the child list of `parent` and has no parent any
more. -/
def World.unlink (w : World) (parent child : NodeId) : World :=
  let w := w.update parent
    (fun e => { e with childNodes := e.childNodes.filter (fun c => c != .element child) })
  w.update child (fun e => { e with parentNode := none })

/-- `parent.removeChild(child)`: a `NotFoundError` unless `child` is a child
of `parent`. -/
def World.removeChild (w : World) (parent child : NodeId) : Except JSError World :=
  match w.elems[child]? with
  | none => .error .notFoundError
  | some e =>
    if e.parentNode = some parent then .ok (w.unlink parent child)
    else .error .notFoundError

/-- The element children among `children` lose their parent: what happens
to the old children when all children of a node are replaced. -/
def World.orphan (w : World) (children : List Child) : World :=
  children.foldl
    (fun w c =>
      match c with
      | .element m => w.update m (fun e => { e with parentNode := none })
      | _ => w)
    w

/-- All children of node `n` are replaced by `children`. -/
def World.replaceChildren (w : World) (n : NodeId) (children : List Child) : World :=
  match w.elems[n]? with
  | none => w
  | some el => (w.orphan el.childNodes).update n (fun e => { e with childNodes := children })

/-- `node.textContent = text`: the children are replaced by one text node,
or by nothing when the text is empty. -/
def World.setTextContent (w : World) (n : NodeId) (text : String) : World :=
  w.replaceChildren n (if text = "" then [] else [.text text])

/-- `node.innerHTML = html`: the children are replaced by the nodes the
parser makes of `html`. -/
def World.setInnerHTML (w : World) (n : NodeId) (html : String) : World :=
  w.replaceChildren n (if html = "" then [] else [.markup html])

/-- The text content of node `n`: the texts of its descendants in order.
`fuel` bounds the depth. -/
def textOf (env : Platform) (store : List Element) : Nat → NodeId → String
  | 0, _ => ""
  | fuel + 1, n =>
    match store[n]? with
    | none => ""
    | some el =>
      String.join (el.childNodes.map (fun c =>
        match c with
        | .text data => data
        | .element m => textOf env store fuel m
        | .markup html => env.textOfMarkup el.localName html))

/-- `node.textContent`, read. -/
def World.textContent (env : Platform) (w : World) (n : NodeId) : String :=
  textOf env w.elems w.elems.length n

/-- How the serializer writes the data of a text node. -/
def escapeText (data : String) : String :=
  String.mk (data.data.flatMap (fun c =>
    if c = '&' then "&amp;".data
    else if c = '<' then "&lt;".data
    else if c = '>' then "&gt;".data
    else if c.toNat = 0xA0 then "&nbsp;".data
    else [c]))

/-- The elements whose text children the serializer writes as they are. -/
def rawTextElements : List String :=
  ["style", "script", "xmp", "iframe", "noembed", "noframes", "plaintext", "noscript"]

/-- `node.innerHTML`, read: the markup of the children in order. -/
def World.innerHTML (env : Platform) (w : World) (n : NodeId) : String :=
  match w.elems[n]? with
  | none => ""
  | some el =>
    String.join (el.childNodes.map (fun c =>
      match c with
      | .text data => if el.localName ∈ rawTextElements then data else escapeText data
      | .element m => env.outerHTML w.elems m
      | .markup html => env.reserialize el.localName html))

/-- The ancestors that the chain of parents starting at `start` runs
through, nearest first, looking at no more than `fuel` nodes. -/
def ancestorsFrom (store : List Element) : Nat → Option NodeId → List NodeId
  | 0, _ => []
  | _ + 1, none => []
  | fuel + 1, some n =>
    match store[n]? with
    | none => []
    | some e => n :: ancestorsFrom store fuel e.parentNode

/-- The ancestors of node `n`, nearest first. -/
def World.ancestors (w : World) (n : NodeId) : List NodeId :=
  ancestorsFrom w.elems w.elems.length ((w.elems[n]?).bind (fun e => e.parentNode))

/-- Whether an event of the given type bubbles, for the types the script
binds: `mouseenter`, `mouseleave` and `resize` do not. -/
def bubbles (type : String) : Bool :=
  decide (type ∈ ["click", "dragover", "dragleave", "drop", "change"])

/-- The targets an event runs through: its target, then for an event that
bubbles the ancestors of the target, nearest first, and the window. -/
def World.propagationPath (w : World) (target : Target) (type : String) : List Target :=
  match target with
  | .window => [.window]
  | .node n =>
    if bubbles type then .node n :: ((w.ancestors n).map Target.node ++ [.window])
    else [.node n]

/-- `target.addEventListener(type, handler)`. -/
def World.addEventListener (w : World) (target : Target) (type : String) (handler : Handler) :
    World :=
  { w with listeners := w.listeners ++ [{ target := target, type := type, handler := handler }] }

/-- `console.log(...args)`. -/
def World.log (w : World) (args : List Arg) : World :=
  { w with console := w.console ++ [{ level := .log, args := args }] }

/-- `console.error(...args)`. -/
def World.error (w : World) (args : List Arg) : World :=
  { w with console := w.console ++ [{ level := .error, args := args }] }

/-- White space and line terminators of ECMAScript, what `trim` strips. -/
def isWhiteSpace (c : Char) : Bool :=
  c.toNat ∈ [0x09, 0x0A, 0x0B, 0x0C, 0x0D, 0x20, 0xA0, 0x1680, 0x2028, 0x2029, 0x202F, 0x205F,
    0x3000, 0xFEFF] || (0x2000 ≤ c.toNat && c.toNat ≤ 0x200A)

/-- `String.prototype.trim`. -/
def trim (s : String) : String :=
  String.mk ((s.data.dropWhile isWhiteSpace).reverse.dropWhile isWhiteSpace).reverse

/-! ## The script, function by function -/

/-- `trackEvent(eventName, eventData = {})` (script.js 159-162): one console
line.  `eventData = none` is the call without a second argument, for which
the default `{}` stands in. -/
def trackEvent (w : World) (eventName : String) (eventData : Option Record) : World :=
  w.log [.text ("Tracking event: " ++ eventName), .record (eventData.getD [])]

/-- `handleResize()` (script.js 184-187). -/
def handleResize (w : World) : World :=
  w.log [.text "Window resized"]

/-- The body of a listener, run with `this = self` and the event `e`.
`preventDefault` only concerns what the browser does next, which is outside
the model. -/
def runHandler (env : Platform) (w : World) (self : Target) (e : Event) :
    Handler → Except JSError World
  | .dragover fileUploader => .ok (w.update fileUploader (fun el => el.addClass "dragover"))
  | .dragleave fileUploader => .ok (w.update fileUploader (fun el => el.removeClass "dragover"))
  | .drop fileUploader => .ok (w.update fileUploader (fun el => el.removeClass "dragover"))
  | .anchorClick =>
    match self with
    | .window => .ok w
    | .node anchor =>
      match w.elems[anchor]? with
      | none => .ok w
      | some el =>
        let targetId := (el.getAttribute "href").getD "null"
        match env.selectorEngine w.elems targetId with
        | .error err => .error err
        | .ok none => .ok w
        | .ok (some targetElement) =>
          .ok { w with scrolls := w.scrolls ++ [env.offsetTop targetElement - 100] }
  | .resize =>
    let r := debounce Callback.applyResize 200 w.timeout w.timers w.now self e
    .ok { w with timeout := r.1, timers := r.2 }
  | .mouseenter tooltip => .ok (w.update tooltip (fun el => el.addClass "visible"))
  | .mouseleave tooltip => .ok (w.update tooltip (fun el => el.removeClass "visible"))
  | .copyClick button =>
    match w.elems[button]? with
    | none => .ok w
    | some el =>
      let textToCopy := (el.getAttribute "data-copy").getD "null"
      .ok { w with pendingWrites := w.pendingWrites ++ [(button, textToCopy)] }
  | .fileChange =>
    match e.files with
    | [] => .ok w
    | file :: _ =>
      .ok (trackEvent w "file_upload"
        (some [("file_type", .str file.type), ("file_size", .num file.size)]))
  | .buttonClick button =>
    .ok (trackEvent w "button_click"
      (some [("button_text", .str (trim (w.textContent env button))),
             ("button_id",
               match w.elems[button]? with
               | none => .null
               | some el => if el.id = "" then .null else .str el.id)]))

/-- One listener is called; an exception that escapes it is reported and the
remaining listeners still run. -/
def World.handle (env : Platform) (self : Target) (e : Event) (w : World) (l : Listener) :
    World :=
  match runHandler env w self e l.handler with
  | .ok w => w
  | .error err => { w with uncaught := w.uncaught ++ [err] }

/-- The event reaches one target of its path: the listeners bound to that
target for the type of the event run, in the order they were added. -/
def World.deliver (env : Platform) (type : String) (e : Event) (w : World) (current : Target) :
    World :=
  (w.listeners.filter (fun l => l.target == current && l.type == type)).foldl
    (World.handle env current e) w

/-- An event of the given type is dispatched at `target`: it is delivered at
the target and then, when it bubbles, at each ancestor and at the window.
The path is fixed when the dispatch starts.  The script binds nothing for the
capture phase and, for the events it handles, nothing to the document itself. -/
def World.dispatchEvent (env : Platform) (w : World) (target : Target) (type : String)
    (e : Event) : World :=
  (w.propagationPath target type).foldl (World.deliver env type e) w

/-- `a.click()` on the anchor of `downloadFile`: a click event is dispatched
at the anchor, then the browser saves the resource behind `href` under the
name given by `download`. -/
def World.click (env : Platform) (w : World) (a : NodeId) : World :=
  let w := w.dispatchEvent env (.node a) "click" { files := [] }
  match w.elems[a]? with
  | none => w
  | some e =>
    match e.getAttribute "href", e.getAttribute "download" with
    | some href, some filename =>
      match w.objectURLs.lookup href with
      | none => w
      | some blob =>
        { w with downloads := w.downloads ++
            [{ filename := filename, content := blob.content, type := blob.type }] }
    | _, _ => w

/-- `downloadFile(content, filename, type)` (script.js 238-250). -/
def downloadFile (env : Platform) (w : World) (content filename type : String) : World :=
  let blob : Blob := { content := content, type := type }
  let url := env.objectURL w.minted
  let w := { w with objectURLs := (url, blob) :: w.objectURLs, minted := w.minted + 1 }
  let created := w.createElement "a"
  let a := created.1
  let w := created.2
  let w := w.update a (fun e => e.setAttribute "href" url)
  let w := w.update a (fun e => e.setAttribute "download" filename)
  let w := w.appendChild w.body a
  let w := w.click env a
  { w with timers := (w.timers.setTimeout w.now (.release a url) 100).2 }

/-- The timer callback of `downloadFile` (script.js 246-249). -/
def release (w : World) (a : NodeId) (url : String) : Except JSError World :=
  match w.removeChild w.body a with
  | .error e => .error e
  | .ok w => .ok { w with objectURLs := w.objectURLs.filter (fun p => p.1 != url) }

/-- The timer callback of the clipboard helper (script.js 110-112). -/
def restoreLabel (w : World) (button : NodeId) (originalText : String) : World :=
  w.setInnerHTML button originalText

/-- A timer callback runs. -/
def runCallback (w : World) : Callback → Except JSError World
  | .restoreLabel button originalText => .ok (restoreLabel w button originalText)
  | .applyResize _ _ => .ok (handleResize w)
  | .release a url => release w a url

/-- A due timer fires; an exception that escapes the callback is reported and
nothing else happens. -/
def World.fire (w : World) (t : Timer Callback) : World :=
  let w := { w with now := max w.now t.fireAt }
  match runCallback w t.callback with
  | .ok w => w
  | .error e => { w with uncaught := w.uncaught ++ [e] }

/-- Let time pass until `t`: every timer due by then fires, in order. -/
def World.advance (w : World) (t : Nat) : World :=
  let fired := (w.timers.due t).foldl World.fire { w with timers := w.timers.later t }
  { fired with now := max fired.now t }

/-- The oldest pending `navigator.clipboard.writeText` resolves: the `then`
callback of the clipboard helper runs (script.js 105-112). -/
def World.resolveWrite (env : Platform) (w : World) : World :=
  match w.pendingWrites with
  | [] => w
  | (button, text) :: rest =>
    let w := { w with pendingWrites := rest, clipboard := some text }
    let originalText := w.innerHTML env button
    let w := w.setInnerHTML button "Copied!"
    { w with timers := (w.timers.setTimeout w.now (.restoreLabel button originalText) 2000).2 }

/-- The oldest pending clipboard write is rejected: the `catch` callback runs
(script.js 113-115). -/
def World.rejectWrite (w : World) (err : JSError) : World :=
  match w.pendingWrites with
  | [] => w
  | _ :: rest =>
    ({ w with pendingWrites := rest } : World).error [.text "Failed to copy text: ", .error err]

/-- The arrow function `initTooltips` applies to each annotated element
(script.js 79-93). -/
def bindTooltip (w : World) (element : NodeId) : World :=
  let tooltipText := (w.elems[element]?).bind (fun el => el.getAttribute "data-tooltip")
  let created := w.createElement "div"
  let tooltip := created.1
  let w := created.2
  let w := w.update tooltip (fun el => { el with classList := ["tooltip"] })
  let w := w.setTextContent tooltip (tooltipText.getD "")
  let w := w.appendChild element tooltip
  let w := w.addEventListener (.node element) "mouseenter" (.mouseenter tooltip)
  w.addEventListener (.node element) "mouseleave" (.mouseleave tooltip)

/-- `initTooltips()` (script.js 76-94). -/
def initTooltips (w : World) : World :=
  let tooltipElements := w.querySelectorAll .dataTooltip
  tooltipElements.foldl bindTooltip w

/-- `initClipboard()` (script.js 99-118). -/
def initClipboard (w : World) : World :=
  let copyButtons := w.querySelectorAll .dataCopy
  copyButtons.foldl
    (fun w button => w.addEventListener (.node button) "click" (.copyClick button)) w

/-- `initApplication()` (script.js 17-29). -/
def initApplication (env : Platform) (w : World) : World :=
  let w := if env.prefersDark then w.update w.documentElement (fun el => el.addClass "dark-mode")
    else w
  let w := initTooltips w
  initClipboard w

/-- `setupEventHandlers()` (script.js 34-71). -/
def setupEventHandlers (w : World) : World :=
  let w :=
    match w.querySelector .stFileUploader with
    | none => w
    | some fileUploader =>
      let w := w.addEventListener (.node fileUploader) "dragover" (.dragover fileUploader)
      let w := w.addEventListener (.node fileUploader) "dragleave" (.dragleave fileUploader)
      w.addEventListener (.node fileUploader) "drop" (.drop fileUploader)
  let w := (w.querySelectorAll .fragmentAnchor).foldl
    (fun w anchor => w.addEventListener (.node anchor) "click" .anchorClick) w
  w.addEventListener .window "resize" .resize

/-- `initAnalytics()` (script.js 123-152). -/
def initAnalytics (w : World) : World :=
  let w := trackEvent w "page_view"
    (some [("page_title", .str w.title), ("page_path", .str w.pathname)])
  let w :=
    match w.querySelector .fileInput with
    | none => w
    | some fileInput => w.addEventListener (.node fileInput) "change" .fileChange
  (w.querySelectorAll .button).foldl
    (fun w button => w.addEventListener (.node button) "click" (.buttonClick button)) w

/-- The `DOMContentLoaded` listener (script.js 3-12). -/
def onDOMContentLoaded (env : Platform) (w : World) : World :=
  initAnalytics (setupEventHandlers (initApplication env w))

/-! ## `JSON.stringify` and `JSON.parse`, for records of strings -/

namespace JSON

/-- Lower-case hexadecimal digit. -/
def hexDigit (n : Nat) : Char :=
  if n < 10 then Char.ofNat (48 + n) else Char.ofNat (87 + n)

/-- How `JSON.stringify` writes one character inside a string literal. -/
def escape (c : Char) : List Char :=
  if c = '\x22' then ['\x5c', '\x22']
  else if c = '\x5c' then ['\x5c', '\x5c']
  else if c = '\x08' then ['\x5c', 'b']
  else if c = '\x0c' then ['\x5c', 'f']
  else if c = '\x0a' then ['\x5c', 'n']
  else if c = '\x0d' then ['\x5c', 'r']
  else if c = '\x09' then ['\x5c', 't']
  else if c.toNat < 0x20 then
    ['\x5c', 'u', '0', '0', hexDigit (c.toNat / 16), hexDigit (c.toNat % 16)]
  else [c]

/-- A string as a JSON string literal. -/
def quote (s : String) : List Char :=
  '\x22' :: (s.data.flatMap escape ++ ['\x22'])

/-- One property on its own line, indented by the two-space gap. -/
def member (p : String × String) : List Char :=
  ' ' :: ' ' :: (quote p.1 ++ (':' :: ' ' :: quote p.2))

/-- The members of an object, each behind a line feed, with commas between. -/
def members : List (String × String) → List Char
  | [] => []
  | [p] => '\x0a' :: member p
  | p :: ps => '\x0a' :: (member p ++ (',' :: members ps))

/-- `JSON.stringify(value, null, 2)` for an object whose property values are
all strings, given as its properties in order. -/
def stringify (props : List (String × String)) : String :=
  match props with
  | [] => String.mk ['\x7b', '\x7d']
  | _ => String.mk ('\x7b' :: (members props ++ ['\x0a', '\x7d']))

/-- JSON white space. -/
def isWs (c : Char) : Bool :=
  c = ' ' || c = '\x09' || c = '\x0a' || c = '\x0d'

/-- Value of a hexadecimal digit. -/
def hexValue (c : Char) : Option Nat :=
  if '0' ≤ c ∧ c ≤ '9' then some (c.toNat - 48)
  else if 'a' ≤ c ∧ c ≤ 'f' then some (c.toNat - 87)
  else if 'A' ≤ c ∧ c ≤ 'F' then some (c.toNat - 55)
  else none

/-- The character a one-letter escape stands for. -/
def unescape (c : Char) : Option Char :=
  if c = '\x22' then some '\x22'
  else if c = '\x5c' then some '\x5c'
  else if c = '/' then some '/'
  else if c = 'b' then some '\x08'
  else if c = 'f' then some '\x0c'
  else if c = 'n' then some '\x0a'
  else if c = 'r' then some '\x0d'
  else if c = 't' then some '\x09'
  else none

/-- The character of a `\u` escape with the given four digits.  An escape
that names a surrogate is outside the model. -/
def unicode (a b c d : Char) : Option Char :=
  match hexValue a, hexValue b, hexValue c, hexValue d with
  | some x, some y, some z, some u =>
    let n := x * 4096 + y * 256 + z * 16 + u
    if n.isValidChar then some (Char.ofNat n) else none
  | _, _, _, _ => none

/-- Read a string literal from behind its opening quote: the characters it
denotes and the input behind its closing quote. -/
def parseChars : List Char → Option (List Char × List Char)
  | [] => none
  | c :: rest =>
    if c = '\x22' then some ([], rest)
    else if c = '\x5c' then
      match rest with
      | [] => none
      | e :: rest =>
        if e = 'u' then
          match rest with
          | a :: b :: c :: d :: rest =>
            match unicode a b c d, parseChars rest with
            | some ch, some (s, r) => some (ch :: s, r)
            | _, _ => none
          | _ => none
        else
          match unescape e, parseChars rest with
          | some ch, some (s, r) => some (ch :: s, r)
          | _, _ => none
    else if c.toNat < 0x20 then none
    else
      match parseChars rest with
      | some (s, r) => some (c :: s, r)
      | none => none

/-- Read a string literal. -/
def parseString : List Char → Option (String × List Char)
  | [] => none
  | c :: rest =>
    if c = '\x22' then
      match parseChars rest with
      | some (s, r) => some (String.mk s, r)
      | none => none
    else none

/-- Read `name : value` members up to the closing brace; nothing but white
space may follow the brace. -/
def parseMembers : Nat → List Char → Option (List (String × String))
  | 0, _ => none
  | fuel + 1, input =>
    match parseString (input.dropWhile isWs) with
    | none => none
    | some (name, input) =>
      match input.dropWhile isWs with
      | [] => none
      | colon :: input =>
        if colon = ':' then
          match parseString (input.dropWhile isWs) with
          | none => none
          | some (value, input) =>
            match input.dropWhile isWs with
            | [] => none
            | sep :: input =>
              if sep = ',' then
                match parseMembers fuel input with
                | some ps => some ((name, value) :: ps)
                | none => none
              else if sep = '\x7d' then
                if input.dropWhile isWs = [] then some [(name, value)] else none
              else none
        else none

/-- `JSON.parse(text)` for texts that denote an object whose property values
are all strings: its properties in order; `none` for any other text. -/
def parse (text : String) : Option (List (String × String)) :=
  match text.data.dropWhile isWs with
  | [] => none
  | first :: input =>
    if first = '\x7b' then
      match input.dropWhile isWs with
      | [] => none
      | next :: after =>
        if next = '\x7d' then (if after.dropWhile isWs = [] then some [] else none)
        else parseMembers text.length input
    else none

end JSON

/-! ## Export (script.js 212-230) -/

/-- `window.exportResults(format = 'text')`.  A call without an argument is
the call with `undefined`. -/
def exportResults (env : Platform) (w : World) (format : JSValue) : Except JSError World :=
  let format := if format = .undefined then JSValue.string "text" else format
  match w.querySelector .captionResultP with
  | none => .error (.typeError "Cannot read properties of null")
  | some p =>
    let caption := w.textContent env p
    if format = .string "text" then
      .ok (downloadFile env w caption "caption.txt" "text/plain")
    else if format = .string "json" then
      let jsonData :=
        [("caption", caption), ("generatedAt", env.toISOString w.now), ("modelVersion", "2.1.0")]
      .ok (downloadFile env w (JSON.stringify jsonData) "caption.json" "application/json")
    else .ok (w.error [.text "Unsupported export format"])

/-! ## What happens to the page from outside the script -/

/-- Another script takes node `n` out of the document (`node.remove()`). -/
def World.detach (w : World) (n : NodeId) : World :=
  match (w.elems[n]?).bind (fun e => e.parentNode) with
  | none => w
  | some parent => w.unlink parent n

/-- A user clicks on node `n`. -/
def World.userClick (env : Platform) (w : World) (n : NodeId) : World :=
  w.dispatchEvent env (.node n) "click" { files := [] }

/-- The label of node `n`: its `innerHTML`. -/
def World.label (env : Platform) (w : World) (n : NodeId) : String :=
  w.innerHTML env n

/-- The pointer enters or leaves an element. -/
inductive Hover
  | mouseenter
  | mouseleave
deriving DecidableEq, Repr

/-- The event type of a pointer movement. -/
def Hover.type : Hover → String
  | .mouseenter => "mouseenter"
  | .mouseleave => "mouseleave"

/-- A sequence of pointer events on node `n`. -/
def World.hover (env : Platform) (w : World) (n : NodeId) (events : List Hover) : World :=
  events.foldl (fun w h => w.dispatchEvent env (.node n) h.type { files := [] }) w

/-- Whether node `t` carries the class `visible`. -/
def World.isVisible (w : World) (t : NodeId) : Bool :=
  match w.elems[t]? with
  | none => false
  | some e => decide ("visible" ∈ e.classList)

/-- The tooltip node `initTooltips` synthesizes for `element`, given the
value of its `data-tooltip` attribute. -/
def tooltipNode (text : Option String) (element : NodeId) : Element :=
  { localName := "div", id := "", classList := ["tooltip"], attributes := [],
    childNodes := if text.getD "" = "" then [] else [.text (text.getD "")],
    parentNode := some element }

/-- The two listeners `initTooltips` binds to `element` for its tooltip. -/
def tooltipListeners (element tooltip : NodeId) : List Listener :=
  [{ target := .node element, type := "mouseenter", handler := .mouseenter tooltip },
   { target := .node element, type := "mouseleave", handler := .mouseleave tooltip }]

/-- The listeners for a list of annotated elements whose tooltips are the
nodes `first`, `first + 1`, and so on. -/
def tooltipListenersFrom (first : NodeId) : List NodeId → List Listener
  | [] => []
  | element :: rest => tooltipListeners element first ++ tooltipListenersFrom (first + 1) rest

/-- Node `t` is the tooltip of element `e`: the hover listeners of `e` are
there and all of them show or hide `t`. -/
def TooltipBound (w : World) (e t : NodeId) : Prop :=
  (∀ l ∈ w.listeners, l.target = .node e →
    (l.type = "mouseenter" → l.handler = .mouseenter t) ∧
      (l.type = "mouseleave" → l.handler = .mouseleave t)) ∧
  (∃ l ∈ w.listeners, l.target = .node e ∧ l.type = "mouseenter") ∧
  (∃ l ∈ w.listeners, l.target = .node e ∧ l.type = "mouseleave") ∧
  t < w.elems.length

/-- A listener that logs nothing when a click reaches it: if it is bound for
clicks at all, it is the copy handler or the navigation handler. -/
def Quiet (l : Listener) : Prop :=
  l.type = "click" → (∃ c, l.handler = .copyClick c) ∨ l.handler = .anchorClick

/-- The listener `initAnalytics` binds to a button. -/
def buttonListener (button : NodeId) : Listener :=
  { target := .node button, type := "click", handler := .buttonClick button }

/-- The console call of `trackEvent('button_click', ...)` for the button `b`
in the state it has in `w`. -/
def World.buttonClickEntry (env : Platform) (w : World) (b : NodeId) : ConsoleEntry :=
  { level := .log,
    args := [.text "Tracking event: button_click",
             .record [("button_text", .str (trim (w.textContent env b))),
                      ("button_id",
                        match w.elems[b]? with
                        | none => .null
                        | some el => if el.id = "" then .null else .str el.id)]] }

/-- The nodes a click on node `n` is delivered at: `n`, then its ancestors. -/
def World.path (w : World) (n : NodeId) : List NodeId :=
  n :: w.ancestors n

/-- The buttons `initAnalytics` finds when the `DOMContentLoaded` listener
runs on a page: the result of `querySelectorAll('button')` at line 144. -/
def boundButtons (env : Platform) (page : World) : List NodeId :=
  (setupEventHandlers (initApplication env page)).querySelectorAll .button

/-- Modelled from the spec: the stylesheet that hides and shows the tooltips
is not under `src/`.  By sections 4.3 and 8 of the spec a tooltip shows only
while it is marked visible, so the text a user sees of node `n` is its text
content without the text of the elements of class `tooltip` that do not
carry the class `visible`.  `fuel` bounds the depth. -/
def visibleOf (env : Platform) (store : List Element) : Nat → NodeId → String
  | 0, _ => ""
  | fuel + 1, n =>
    match store[n]? with
    | none => ""
    | some el =>
      String.join (el.childNodes.map (fun c =>
        match c with
        | .text data => data
        | .element m =>
          match store[m]? with
          | none => ""
          | some child =>
            if "tooltip" ∈ child.classList ∧ "visible" ∉ child.classList then ""
            else visibleOf env store fuel m
        | .markup html => env.textOfMarkup el.localName html))

/-- The visible text of node `n`. -/
def World.visibleText (env : Platform) (w : World) (n : NodeId) : String :=
  visibleOf env w.elems w.elems.length n

/-- What no listener of the script touches: the files saved so far, the
object URLs, and the attributes of every node. -/
def Keeps (w w2 : World) : Prop :=
  w2.downloads = w.downloads ∧ w2.objectURLs = w.objectURLs ∧
    ∀ n : Nat, (w2.elems[n]?).map (fun e => e.attributes) = (w.elems[n]?).map (fun e => e.attributes)

/-! ## Sample pages -/

/-- How the sample browser writes an attribute value. -/
def escapeAttribute (value : String) : String :=
  String.mk (value.data.flatMap (fun c =>
    if c = '&' then "&amp;".data
    else if c = '\x22' then "&quot;".data
    else if c = '<' then "&lt;".data
    else if c = '>' then "&gt;".data
    else if c.toNat = 0xA0 then "&nbsp;".data
    else [c]))

/-- The elements that have no end tag. -/
def voidElements : List String :=
  ["area", "base", "br", "col", "embed", "hr", "img", "input", "link", "meta", "source", "track",
    "wbr"]

/-- The serializer of the sample browser: start tag with the id, the classes
and the other attributes, the children, end tag.  Markup that was assigned
through `innerHTML` is written back as it is. -/
def sampleOuterHTML (store : List Element) : Nat → NodeId → String
  | 0, _ => ""
  | fuel + 1, n =>
    match store[n]? with
    | none => ""
    | some el =>
      let attrs :=
        (if el.id = "" then [] else [("id", el.id)]) ++
        (if el.classList = [] then [] else [("class", " ".intercalate el.classList)]) ++
        el.attributes
      let startTag := "<" ++ el.localName ++
        String.join (attrs.map (fun p => " " ++ p.1 ++ "=\x22" ++ escapeAttribute p.2 ++ "\x22")) ++ ">"
      if el.localName ∈ voidElements then startTag
      else
        startTag ++
          String.join (el.childNodes.map (fun c =>
            match c with
            | .text data => if el.localName ∈ rawTextElements then data else escapeText data
            | .element m => sampleOuterHTML store fuel m
            | .markup html => html)) ++
          "</" ++ el.localName ++ ">"

/-- A browser for the sample pages.  Its parser is only right for markup
without tags and character references, which is all the sample pages assign. -/
def sampleEnv : Platform :=
  { prefersDark := false
    toISOString := fun t => if t = 0 then "1970-01-01T00:00:00.000Z" else "2024-05-01T12:00:00.000Z"
    selectorEngine := fun _ _ => .ok none
    offsetTop := fun _ => 0
    objectURL := fun n => String.mk ("blob:page/".data ++ List.replicate n 'x')
    textOfMarkup := fun _ html => html
    reserialize := fun _ html => html
    outerHTML := fun store n => sampleOuterHTML store store.length n }

/-- A page with a caption, a copy button and an element with a tooltip text. -/
def samplePage : World :=
  World.load
    [ { localName := "html", id := "", classList := [], attributes := [],
        childNodes := [.element 1], parentNode := none },
      { localName := "body", id := "", classList := [], attributes := [],
        childNodes := [.element 2, .element 4, .element 5], parentNode := some 0 },
      { localName := "div", id := "", classList := ["caption-result"], attributes := [],
        childNodes := [.element 3], parentNode := some 1 },
      { localName := "p", id := "", classList := [], attributes := [],
        childNodes := [.text "A cat on a mat."], parentNode := some 2 },
      { localName := "button", id := "copy-btn", classList := [],
        attributes := [("data-copy", "A cat on a mat.")],
        childNodes := [.text "Copy"], parentNode := some 1 },
      { localName := "span", id := "", classList := [],
        attributes := [("data-tooltip", "Copies the caption")],
        childNodes := [.text "?"], parentNode := some 1 } ]
    0 1 "Image Caption Generator" "/"

/-- A page with nothing in its body. -/
def blankPage : World :=
  World.load
    [ { localName := "html", id := "", classList := [], attributes := [],
        childNodes := [.element 1], parentNode := none },
      { localName := "body", id := "", classList := [], attributes := [],
        childNodes := [], parentNode := some 0 } ]
    0 1 "Image Caption Generator" "/"

/-- A page with a button that carries a tooltip text (node 2, showing `Go`)
and a button (node 4) inside another button (node 3), with a `span` (node 5)
inside the inner one. -/
def buttonPage : World :=
  World.load
    [ { localName := "html", id := "", classList := [], attributes := [],
        childNodes := [.element 1], parentNode := none },
      { localName := "body", id := "", classList := [], attributes := [],
        childNodes := [.element 2, .element 3], parentNode := some 0 },
      { localName := "button", id := "go", classList := [],
        attributes := [("data-tooltip", "Tip")],
        childNodes := [.text "Go"], parentNode := some 1 },
      { localName := "button", id := "outer", classList := [], attributes := [],
        childNodes := [.text " Outer ", .element 4], parentNode := some 1 },
      { localName := "button", id := "", classList := [], attributes := [],
        childNodes := [.element 5], parentNode := some 3 },
      { localName := "span", id := "", classList := [], attributes := [],
        childNodes := [.text " Inner\n"], parentNode := some 4 } ]
    0 1 "Image Caption Generator" "/"

/-- The copy button of the sample page (node 4) is clicked and the clipboard
write resolves at once, at time 0. -/
def firstCopy : World :=
  ((initClipboard samplePage).userClick sampleEnv 4).resolveWrite sampleEnv

/-- At time 1000, with the first restore timer pending, the button is clicked
again and the second write resolves. -/
def secondCopy : World :=
  ((firstCopy.advance 1000).userClick sampleEnv 4).resolveWrite sampleEnv

/-- The sample page after `downloadFile` was called for a text export. -/
def exported : World :=
  downloadFile sampleEnv samplePage "A cat on a mat." "caption.txt" "text/plain"
/-! ## Proofs about `debounce` -/

theorem timerDelay_of_lt (w : Nat) (h : w < 2147483648) : timerDelay w = w := by
  have h2 : w % 4294967296 = w := Nat.mod_eq_of_lt (by omega)
  simp [timerDelay, h2, h]

theorem call_create {C A : Type} (w : Nat) (hlt : w < 2147483648) (c : Nat × C × A) :
    Armed ((Debounced.create w).call c) w c := by
  refine ⟨rfl, ?_, rfl, 1, rfl, rfl, ?_⟩
  · simp [Debounced.call, Debounced.advance, Debounced.create, TimerHeap.due, TimerHeap.empty,
      TimerHeap.later]
  · simp [Debounced.call, Debounced.advance, Debounced.create, TimerHeap.due, TimerHeap.empty,
      TimerHeap.later, debounce, TimerHeap.clearTimeout, TimerHeap.setTimeout, insertTimer,
      timerDelay_of_lt w hlt]

theorem call_armed {C A : Type} (w : Nat) (hlt : w < 2147483648) (s : Debounced C A)
    (c d : Nat × C × A) (hs : Armed s w c) (h1 : c.1 ≤ d.1) (h2 : d.1 < c.1 + w) :
    Armed (s.call d) w d := by
  obtain ⟨hw, hnow, hinv, i, hto, hid, hp⟩ := hs
  have hdue : s.heap.due d.1 = [] := by
    simp [TimerHeap.due, hp]; omega
  have hlater : (s.heap.later d.1).pending = s.heap.pending := by
    simp [TimerHeap.later, hp]; omega
  refine ⟨?_, ?_, ?_, i + 1, ?_, ?_, ?_⟩
  · simp [Debounced.call, Debounced.advance, hdue, hw]
  · simp [Debounced.call, Debounced.advance, hdue, hnow]; omega
  · simp [Debounced.call, Debounced.advance, hdue, hinv]
  · simp [Debounced.call, Debounced.advance, hdue, debounce, TimerHeap.setTimeout,
      TimerHeap.clearTimeout, hto, TimerHeap.later, hid]
  · simp [Debounced.call, Debounced.advance, hdue, debounce, TimerHeap.setTimeout,
      TimerHeap.clearTimeout, hto, TimerHeap.later, hid]
  · simp [Debounced.call, Debounced.advance, hdue, debounce, TimerHeap.setTimeout,
      TimerHeap.clearTimeout, hto, TimerHeap.later, hid, hp, insertTimer, hw, hnow,
      timerDelay_of_lt w hlt]
    omega

theorem run_armed {C A : Type} (w : Nat) (hlt : w < 2147483648) (rest : List (Nat × C × A)) :
    ∀ (s : Debounced C A) (c : Nat × C × A), Armed s w c → Burst w (c :: rest) →
      Armed (s.run rest) w ((c :: rest).getLast (List.cons_ne_nil c rest)) := by
  induction rest with
  | nil => intro s c hs _; simpa [Debounced.run] using hs
  | cons d ds ih =>
    intro s c hs hb
    have hb2 : (c.1 ≤ d.1 ∧ d.1 < c.1 + w) ∧ Burst w (d :: ds) := hb
    have := ih (s.call d) d (call_armed w hlt s c d hs hb2.1.1 hb2.1.2) hb2.2
    simpa [Debounced.run, List.getLast_cons] using this

theorem burst_armed {C A : Type} (w : Nat) (hlt : w < 2147483648)
    (calls : List (Nat × C × A)) (hne : calls ≠ []) (hb : Burst w calls) :
    Armed ((Debounced.create w).run calls) w (calls.getLast hne) := by
  cases calls with
  | nil => exact absurd rfl hne
  | cons c rest =>
    have := run_armed w hlt rest ((Debounced.create w).call c) c (call_create w hlt c) hb
    simpa [Debounced.run] using this

theorem advance_armed {C A : Type} (w : Nat) (s : Debounced C A) (c : Nat × C × A)
    (hs : Armed s w c) (T : Nat) :
    (s.advance T).invoked = if c.1 + w ≤ T then [(c.1 + w, c.2.1, c.2.2)] else [] := by
  obtain ⟨_, _, hinv, i, _, _, hp⟩ := hs
  by_cases h : c.1 + w ≤ T
  · simp [Debounced.advance, TimerHeap.due, hp, h, Debounced.fire, hinv]
  · simp [Debounced.advance, TimerHeap.due, hp, h, hinv]

/-- C2, as amended: for every wait `w` with `0 < w < 2^31` (the range in which
`setTimeout` takes the delay as it is given) and every non-empty burst of
calls of the function returned by `debounce(func, w)` (call times in order,
each gap shorter than `w`), `func` is invoked exactly once, at the time of
the last call plus `w`: at any time `T` the invocation times recorded so far
are empty before that moment and the single time `tN + w` from it on. -/
theorem debounce_burst_fires_once {C A : Type} (w : Nat) (_hw : 0 < w) (hlt : w < 2147483648)
    (calls : List (Nat × C × A)) (hne : calls ≠ []) (hb : Burst w calls) (T : Nat) :
    ((((Debounced.create w).run calls).advance T).invoked.map (fun i => i.1)) =
      if (calls.getLast hne).1 + w ≤ T then [(calls.getLast hne).1 + w] else [] := by
  rw [advance_armed w _ _ (burst_armed w hlt calls hne hb) T]
  split <;> rfl

theorem debounce_burst_fires_once_witness :
    (0 < 200 ∧ 200 < 2147483648 ∧
      Burst 200 [(0, "window", "e1"), (150, "window", "e2"), (300, "window", "e3")]) ∧
    ((((Debounced.create 200).run
        [(0, "window", "e1"), (150, "window", "e2"), (300, "window", "e3")]).advance 500).invoked.map
          (fun i => i.1)) = [500] :=
  ⟨⟨by decide, by decide, by decide⟩,
    debounce_burst_fires_once 200 (by decide) (by decide)
      [(0, "window", "e1"), (150, "window", "e2"), (300, "window", "e3")] (by decide) (by decide) 500⟩

/-- C2 fails as stated: with `wait = 2^31` the delay wraps to a negative
32-bit integer and each timer is due at once.  The two calls at times 0 and
1000 are a burst (the gap is shorter than `wait`), yet by time 5000, long
before `1000 + 2^31`, `func` has been invoked twice, at 0 and at 1000. -/
theorem debounce_wrapped_wait_fires_early :
    0 < 2147483648 ∧
      Burst 2147483648 [(0, "window", "e1"), (1000, "window", "e2")] ∧
      5000 < 1000 + 2147483648 ∧
      ((((Debounced.create 2147483648).run
          [(0, "window", "e1"), (1000, "window", "e2")]).advance 5000).invoked.map
            (fun i => i.1)) = [0, 1000] := by
  decide

/-- C3, as amended: for every wait `w < 2^31` and every non-empty burst of
calls of the function returned by `debounce(func, w)`, whatever `func` has
been applied to by time `T` is the `this` value and the argument list of the
last call of the burst, once, and nothing at all before the trailing
invocation; the contexts and arguments of the earlier calls never reach
`func`. -/
theorem debounce_forwards_trailing_call {C A : Type} (w : Nat) (hlt : w < 2147483648)
    (calls : List (Nat × C × A)) (hne : calls ≠ []) (hb : Burst w calls) (T : Nat) :
    ((((Debounced.create w).run calls).advance T).invoked.map (fun i => i.2)) =
      if (calls.getLast hne).1 + w ≤ T then [(calls.getLast hne).2] else [] := by
  rw [advance_armed w _ _ (burst_armed w hlt calls hne hb) T]
  split <;> rfl

theorem debounce_forwards_trailing_call_witness :
    (200 < 2147483648 ∧
      Burst 200 [(0, "window", "e1"), (150, "document", "e2"), (300, "window", "e3")]) ∧
    ((((Debounced.create 200).run
        [(0, "window", "e1"), (150, "document", "e2"), (300, "window", "e3")]).advance 500).invoked.map
          (fun i => i.2)) = [("window", "e3")] :=
  ⟨⟨by decide, by decide⟩,
    debounce_forwards_trailing_call 200 (by decide)
      [(0, "window", "e1"), (150, "document", "e2"), (300, "window", "e3")] (by decide) (by decide) 500⟩

/-- C3 fails as stated: with `wait = 2^31` each timer is due at once, so in
the burst of two calls at times 0 and 1000 the first timer fires before the
second call clears it, and `func` is applied to the context and arguments of
the first call as well as to those of the second. -/
theorem debounce_wrapped_wait_forwards_leading_call :
    Burst 2147483648 [(0, "window", "e1"), (1000, "document", "e2")] ∧
      ((((Debounced.create 2147483648).run
          [(0, "window", "e1"), (1000, "document", "e2")]).advance 5000).invoked.map
            (fun i => i.2)) = [("window", "e1"), ("document", "e2")] := by
  decide

/-! ## Proofs about the JSON text -/

namespace JSON

theorem unicode_control : ∀ n, n < 32 →
    unicode '0' '0' (hexDigit (n / 16)) (hexDigit (n % 16)) = some (Char.ofNat n) := by
  decide

theorem parseChars_cons (c : Char) (rest : List Char) :
    parseChars (c :: rest) =
      if c = '\x22' then some ([], rest)
      else if c = '\x5c' then
        match rest with
        | [] => none
        | e :: rest =>
          if e = 'u' then
            match rest with
            | a :: b :: c :: d :: rest =>
              match unicode a b c d, parseChars rest with
              | some ch, some (s, r) => some (ch :: s, r)
              | _, _ => none
            | _ => none
          else
            match unescape e, parseChars rest with
            | some ch, some (s, r) => some (ch :: s, r)
            | _, _ => none
      else if c.toNat < 0x20 then none
      else
        match parseChars rest with
        | some (s, r) => some (c :: s, r)
        | none => none := by
  rw [parseChars.eq_def]

theorem parseChars_escape (c : Char) (tail : List Char) (s r : List Char)
    (h : parseChars tail = some (s, r)) :
    parseChars (escape c ++ tail) = some (c :: s, r) := by
  unfold escape
  split_ifs with h1 h2 h3 h4 h5 h6 h7 h8
  · subst h1; simp [parseChars_cons, unescape, h]
  · subst h2; simp [parseChars_cons, unescape, h]
  · subst h3; simp [parseChars_cons, unescape, h]
  · subst h4; simp [parseChars_cons, unescape, h]
  · subst h5; simp [parseChars_cons, unescape, h]
  · subst h6; simp [parseChars_cons, unescape, h]
  · subst h7; simp [parseChars_cons, unescape, h]
  · have hc : Char.ofNat c.toNat = c := Char.ofNat_toNat c
    simp [parseChars_cons, unicode_control c.toNat h8, h, hc]
  · simp [parseChars_cons, h1, h2, h8, h]

theorem parseChars_flatMap (s : List Char) (rest : List Char) :
    parseChars (s.flatMap escape ++ '\x22' :: rest) = some (s, rest) := by
  induction s with
  | nil => simp [parseChars_cons]
  | cons c s ih =>
    rw [List.flatMap_cons, List.append_assoc]
    exact parseChars_escape c _ s rest ih

theorem parseString_quote (s : String) (rest : List Char) :
    parseString (quote s ++ rest) = some (s, rest) := by
  simp [quote, parseString, parseChars_flatMap]

theorem dropWhile_quote (s : String) (rest : List Char) :
    (quote s ++ rest).dropWhile isWs = quote s ++ rest := by
  simp [quote, isWs]

theorem parseMembers_comma (fuel : Nat) (p : String × String) (tail : List Char) :
    parseMembers (fuel + 1) ('\x0a' :: (member p ++ ',' :: tail)) =
      match parseMembers fuel tail with
      | some ps => some (p :: ps)
      | none => none := by
  have h1 : ('\x0a' :: (member p ++ ',' :: tail)).dropWhile isWs
      = quote p.1 ++ (':' :: ' ' :: (quote p.2 ++ ',' :: tail)) := by
    simp [member, isWs, quote]
  have h2 : (' ' :: (quote p.2 ++ ',' :: tail)).dropWhile isWs = quote p.2 ++ ',' :: tail := by
    simp [isWs, quote]
  rw [parseMembers, h1, parseString_quote]
  simp only [List.dropWhile_cons, isWs]
  simp only [Char.reduceEq, decide_False, Bool.or_self, Bool.false_eq_true, if_false, if_true]
  rw [h2, parseString_quote]
  simp [isWs]

theorem parseMembers_last (fuel : Nat) (p : String × String) :
    parseMembers (fuel + 1) ('\x0a' :: (member p ++ ['\x0a', '\x7d'])) = some [p] := by
  have h1 : ('\x0a' :: (member p ++ ['\x0a', '\x7d'])).dropWhile isWs
      = quote p.1 ++ (':' :: ' ' :: (quote p.2 ++ ['\x0a', '\x7d'])) := by
    simp [member, isWs, quote]
  have h2 : (' ' :: (quote p.2 ++ ['\x0a', '\x7d'])).dropWhile isWs
      = quote p.2 ++ ['\x0a', '\x7d'] := by
    simp [isWs, quote]
  rw [parseMembers, h1, parseString_quote]
  simp only [List.dropWhile_cons, isWs]
  simp only [Char.reduceEq, decide_False, Bool.or_self, Bool.false_eq_true, if_false, if_true]
  rw [h2, parseString_quote]
  simp [isWs]

theorem parseMembers_members (props : List (String × String)) :
    props ≠ [] → ∀ fuel, props.length ≤ fuel →
      parseMembers fuel (members props ++ ['\x0a', '\x7d']) = some props := by
  induction props with
  | nil => intro h; exact absurd rfl h
  | cons p ps ih =>
    intro _ fuel hfuel
    obtain ⟨k, rfl⟩ : ∃ k, fuel = k + 1 := ⟨fuel - 1, by simp at hfuel; omega⟩
    cases ps with
    | nil => simpa [members] using parseMembers_last k p
    | cons q qs =>
      have hrec := ih (List.cons_ne_nil q qs) k (by simp at hfuel ⊢; omega)
      have := parseMembers_comma k p (members (q :: qs) ++ ['\x0a', '\x7d'])
      rw [hrec] at this
      simpa [members] using this

theorem length_le_members (props : List (String × String)) :
    props.length ≤ (members props).length := by
  induction props with
  | nil => simp [members]
  | cons p ps ih =>
    cases ps with
    | nil => simp [members]
    | cons q qs => simp [members] at ih ⊢; omega

/-- Parsing what `stringify` wrote gives the properties back, in order. -/
theorem parse_stringify (props : List (String × String)) :
    parse (stringify props) = some props := by
  cases props with
  | nil => simp [stringify, parse, isWs]
  | cons p ps =>
    have hlen : (p :: ps).length ≤ (stringify (p :: ps)).length := by
      have := length_le_members (p :: ps)
      simp [stringify, String.length] at this ⊢
      omega
    have hmem := parseMembers_members (p :: ps) (List.cons_ne_nil p ps) _ hlen
    have hstart : ∃ rest, (members (p :: ps) ++ ['\x0a', '\x7d']).dropWhile isWs
        = '\x22' :: rest := by
      cases ps <;> simp [members, member, quote, isWs]
    obtain ⟨rest, hrest⟩ := hstart
    simp only [parse]
    have hdata : (stringify (p :: ps)).data = '\x7b' :: (members (p :: ps) ++ ['\x0a', '\x7d']) := rfl
    rw [hdata]
    simp only [List.dropWhile_cons, isWs]
    simp only [Char.reduceEq, decide_False, Bool.or_self, Bool.false_eq_true, if_false, if_true]
    rw [hrest]
    simp [hmem]

end JSON

/-! ## The node store -/

theorem length_updateAt (f : Element → Element) (n : Nat) (l : List Element) :
    (updateAt f n l).length = l.length := by
  induction l generalizing n with
  | nil => cases n <;> rfl
  | cons e es ih => cases n <;> simp [updateAt, ih]

theorem getElem?_updateAt (f : Element → Element) (n m : Nat) (l : List Element) :
    (updateAt f n l)[m]? = if m = n then (l[m]?).map f else l[m]? := by
  induction l generalizing n m with
  | nil => cases n <;> simp [updateAt]
  | cons e es ih =>
    cases n with
    | zero => cases m <;> simp [updateAt]
    | succ n => cases m <;> simp [updateAt, ih]

theorem updateAt_append_length (f : Element → Element) (l : List Element) (e : Element) :
    updateAt f l.length (l ++ [e]) = l ++ [f e] := by
  induction l with
  | nil => rfl
  | cons a as ih => simp [updateAt, ih]

/-! ## What listeners leave alone -/

theorem Keeps.refl (w : World) : Keeps w w := ⟨rfl, rfl, fun _ => rfl⟩

theorem Keeps.trans {a b c : World} (h1 : Keeps a b) (h2 : Keeps b c) : Keeps a c :=
  ⟨h2.1.trans h1.1, h2.2.1.trans h1.2.1, fun n => (h2.2.2 n).trans (h1.2.2 n)⟩

theorem update_keeps (w : World) (n : NodeId) (f : Element → Element)
    (hf : ∀ e, (f e).attributes = e.attributes) : Keeps w (w.update n f) := by
  refine ⟨rfl, rfl, fun m => ?_⟩
  simp only [World.update, getElem?_updateAt]
  split
  · cases w.elems[m]? <;> simp [hf]
  · rfl

theorem runHandler_keeps (env : Platform) (w : World) (self : Target) (ev : Event) (h : Handler) :
    ∀ w2, runHandler env w self ev h = .ok w2 → Keeps w w2 := by
  intro w2 heq
  cases h with
  | dragover n =>
    simp only [runHandler] at heq; cases heq
    exact update_keeps w n _ (fun e => by simp only [Element.addClass])
  | dragleave n =>
    simp only [runHandler] at heq; cases heq
    exact update_keeps w n _ (fun e => by simp only [Element.removeClass])
  | drop n =>
    simp only [runHandler] at heq; cases heq
    exact update_keeps w n _ (fun e => by simp only [Element.removeClass])
  | anchorClick =>
    simp only [runHandler] at heq
    split at heq
    · cases heq; exact Keeps.refl w
    · split at heq
      · cases heq; exact Keeps.refl w
      · split at heq
        · cases heq
        · cases heq; exact Keeps.refl w
        · cases heq; exact ⟨rfl, rfl, fun _ => rfl⟩
  | resize =>
    simp only [runHandler] at heq; cases heq
    exact ⟨rfl, rfl, fun _ => rfl⟩
  | mouseenter n =>
    simp only [runHandler] at heq; cases heq
    exact update_keeps w n _ (fun e => by simp only [Element.addClass])
  | mouseleave n =>
    simp only [runHandler] at heq; cases heq
    exact update_keeps w n _ (fun e => by simp only [Element.removeClass])
  | copyClick n =>
    simp only [runHandler] at heq
    split at heq <;> cases heq
    · exact Keeps.refl w
    · exact ⟨rfl, rfl, fun _ => rfl⟩
  | fileChange =>
    simp only [runHandler] at heq
    split at heq <;> cases heq
    · exact Keeps.refl w
    · exact ⟨rfl, rfl, fun _ => rfl⟩
  | buttonClick n =>
    simp only [runHandler] at heq; cases heq
    exact ⟨rfl, rfl, fun _ => rfl⟩

theorem handle_keeps (env : Platform) (self : Target) (ev : Event) (w : World) (l : Listener) :
    Keeps w (World.handle env self ev w l) := by
  unfold World.handle
  cases hr : runHandler env w self ev l.handler with
  | ok w2 => exact runHandler_keeps env w self ev l.handler w2 hr
  | error err => exact ⟨rfl, rfl, fun _ => rfl⟩

theorem foldl_handle_keeps (env : Platform) (self : Target) (ev : Event) (ls : List Listener) :
    ∀ w : World, Keeps w (ls.foldl (World.handle env self ev) w) := by
  induction ls with
  | nil => intro w; exact Keeps.refl w
  | cons l ls ih =>
    intro w
    exact (handle_keeps env self ev w l).trans (ih _)

theorem deliver_keeps (env : Platform) (type : String) (ev : Event) (w : World) (cur : Target) :
    Keeps w (World.deliver env type ev w cur) :=
  foldl_handle_keeps env cur ev _ w

theorem foldl_deliver_keeps (env : Platform) (type : String) (ev : Event) (path : List Target) :
    ∀ w : World, Keeps w (path.foldl (World.deliver env type ev) w) := by
  induction path with
  | nil => intro w; exact Keeps.refl w
  | cons c cs ih =>
    intro w
    exact (deliver_keeps env type ev w c).trans (ih _)

theorem dispatchEvent_keeps (env : Platform) (w : World) (target : Target) (type : String)
    (ev : Event) : Keeps w (w.dispatchEvent env target type ev) :=
  foldl_deliver_keeps env type ev _ w

/-! ## Export -/

/-- The page at the moment `downloadFile` calls `a.click()`. -/
theorem downloadFile_eq (env : Platform) (w : World) (content filename type : String) :
    downloadFile env w content filename type =
      { (World.click env
          { w with
            objectURLs := (env.objectURL w.minted, { content := content, type := type }) :: w.objectURLs
            minted := w.minted + 1
            elems := updateAt
              (fun e => { e with childNodes := e.childNodes ++ [.element w.elems.length] }) w.body
              (w.elems ++ [{ localName := "a", id := "", classList := [],
                             attributes := [("href", env.objectURL w.minted), ("download", filename)],
                             childNodes := [], parentNode := some w.body }]) }
          w.elems.length) with
        timers := ((World.click env
          { w with
            objectURLs := (env.objectURL w.minted, { content := content, type := type }) :: w.objectURLs
            minted := w.minted + 1
            elems := updateAt
              (fun e => { e with childNodes := e.childNodes ++ [.element w.elems.length] }) w.body
              (w.elems ++ [{ localName := "a", id := "", classList := [],
                             attributes := [("href", env.objectURL w.minted), ("download", filename)],
                             childNodes := [], parentNode := some w.body }]) }
          w.elems.length).timers.setTimeout
            (World.click env
              { w with
                objectURLs :=
                  (env.objectURL w.minted, { content := content, type := type }) :: w.objectURLs
                minted := w.minted + 1
                elems := updateAt
                  (fun e => { e with childNodes := e.childNodes ++ [.element w.elems.length] }) w.body
                  (w.elems ++ [{ localName := "a", id := "", classList := [],
                                 attributes :=
                                   [("href", env.objectURL w.minted), ("download", filename)],
                                 childNodes := [], parentNode := some w.body }]) }
              w.elems.length).now
            (.release w.elems.length (env.objectURL w.minted)) 100).2 } := by
  simp [downloadFile, World.createElement, World.update, World.appendChild,
    updateAt_append_length, Element.setAttribute]

/-- A click on a node with `href` and `download` whose URL is registered
saves one file, whatever the listeners on its path do. -/
theorem click_downloads (env : Platform) (w : World) (a : NodeId) (url filename : String)
    (blob : Blob)
    (hattr : (w.elems[a]?).map (fun e => e.attributes) = some [("href", url), ("download", filename)])
    (hurl : w.objectURLs.lookup url = some blob) :
    (w.click env a).downloads =
      w.downloads ++ [{ filename := filename, content := blob.content, type := blob.type }] := by
  obtain ⟨hd, ho, ha⟩ := dispatchEvent_keeps env w (.node a) "click" { files := [] }
  have h2 := (ha a).trans hattr
  obtain ⟨e, he, hea⟩ : ∃ e, (w.dispatchEvent env (.node a) "click" { files := [] }).elems[a]? = some e
      ∧ e.attributes = [("href", url), ("download", filename)] := by
    cases hx : (w.dispatchEvent env (.node a) "click" { files := [] }).elems[a]? with
    | none => rw [hx] at h2; simp at h2
    | some e => rw [hx] at h2; exact ⟨e, rfl, by simpa using h2⟩
  simp only [World.click, he, Element.getAttribute, hea, ho, hd]
  simp [List.lookup, hurl]

/-- The one file `downloadFile` makes the browser save. -/
theorem downloadFile_downloads (env : Platform) (w : World) (content filename type : String) :
    (downloadFile env w content filename type).downloads =
      w.downloads ++ [{ filename := filename, content := content, type := type }] := by
  rw [downloadFile_eq]
  simp only []
  rw [click_downloads env _ w.elems.length (env.objectURL w.minted) filename
    { content := content, type := type }]
  · simp only [getElem?_updateAt]
    split <;> simp
  · simp [List.lookup]

/-- C6: when the result element holds the caption `c`, `exportResults('text')`
triggers exactly one download, named `caption.txt`, of type `text/plain`,
whose content is `c` unchanged; and `exportResults()` without an argument
does the same as `exportResults('text')`. -/
theorem exportResults_text_is_raw_caption (env : Platform) (w : World) (p : NodeId)
    (hq : w.querySelector .captionResultP = some p) :
    (exportResults env w (.string "text")).map World.downloads =
        .ok (w.downloads ++
          [{ filename := "caption.txt", content := w.textContent env p, type := "text/plain" }]) ∧
      exportResults env w .undefined = exportResults env w (.string "text") := by
  constructor
  · simp [exportResults, hq, downloadFile_downloads, Except.map]
  · simp [exportResults]

theorem exportResults_text_is_raw_caption_witness :
    (samplePage.querySelector .captionResultP = some 3 ∧
      samplePage.textContent sampleEnv 3 = "A cat on a mat.") ∧
    ((exportResults sampleEnv samplePage (.string "text")).map World.downloads =
        .ok (samplePage.downloads ++
          [{ filename := "caption.txt", content := samplePage.textContent sampleEnv 3,
             type := "text/plain" }]) ∧
      exportResults sampleEnv samplePage .undefined
        = exportResults sampleEnv samplePage (.string "text")) :=
  ⟨⟨by decide, by decide⟩,
    exportResults_text_is_raw_caption sampleEnv samplePage 3 (by decide)⟩

/-- C5: when the result element holds the caption `c` and the call is made at
time `T`, `exportResults('json')` triggers exactly one download, named
`caption.json`, of type `application/json`; its content is the object with
the keys `caption`, `generatedAt`, `modelVersion`, in that order, written
with two-space indentation, and parsing it gives `caption = c`,
`generatedAt =` the ISO rendering of `T` and `modelVersion = "2.1.0"`. -/
theorem exportResults_json_envelope (env : Platform) (w : World) (p : NodeId)
    (hq : w.querySelector .captionResultP = some p) :
    ∃ content : String,
      (exportResults env w (.string "json")).map World.downloads =
          .ok (w.downloads ++
            [{ filename := "caption.json", content := content, type := "application/json" }]) ∧
        content.data =
          '\x7b' :: '\x0a' :: ' ' :: ' ' :: (JSON.quote "caption" ++ ':' :: ' ' ::
            (JSON.quote (w.textContent env p) ++ ',' :: '\x0a' :: ' ' :: ' ' ::
              (JSON.quote "generatedAt" ++ ':' :: ' ' ::
                (JSON.quote (env.toISOString w.now) ++ ',' :: '\x0a' :: ' ' :: ' ' ::
                  (JSON.quote "modelVersion" ++ ':' :: ' ' ::
                    (JSON.quote "2.1.0" ++ ['\x0a', '\x7d'])))))) ∧
        JSON.parse content =
          some [("caption", w.textContent env p), ("generatedAt", env.toISOString w.now),
            ("modelVersion", "2.1.0")] := by
  refine ⟨JSON.stringify [("caption", w.textContent env p),
    ("generatedAt", env.toISOString w.now), ("modelVersion", "2.1.0")], ?_, ?_,
    JSON.parse_stringify _⟩
  · simp [exportResults, hq, downloadFile_downloads, Except.map]
  · simp [JSON.stringify, JSON.members, JSON.member]

theorem exportResults_json_envelope_witness :
    (samplePage.querySelector .captionResultP = some 3 ∧
      samplePage.textContent sampleEnv 3 = "A cat on a mat.") ∧
    ∃ content : String,
      (exportResults sampleEnv samplePage (.string "json")).map World.downloads =
          .ok (samplePage.downloads ++
            [{ filename := "caption.json", content := content, type := "application/json" }]) ∧
        content.data =
          '\x7b' :: '\x0a' :: ' ' :: ' ' :: (JSON.quote "caption" ++ ':' :: ' ' ::
            (JSON.quote (samplePage.textContent sampleEnv 3) ++ ',' :: '\x0a' :: ' ' :: ' ' ::
              (JSON.quote "generatedAt" ++ ':' :: ' ' ::
                (JSON.quote (sampleEnv.toISOString samplePage.now) ++ ',' :: '\x0a' :: ' ' :: ' ' ::
                  (JSON.quote "modelVersion" ++ ':' :: ' ' ::
                    (JSON.quote "2.1.0" ++ ['\x0a', '\x7d'])))))) ∧
        JSON.parse content =
          some [("caption", samplePage.textContent sampleEnv 3),
            ("generatedAt", sampleEnv.toISOString samplePage.now), ("modelVersion", "2.1.0")] :=
  ⟨⟨by decide, by decide⟩,
    exportResults_json_envelope sampleEnv samplePage 3 (by decide)⟩

/-- C4, as amended: when the result element exists, for every format value
other than `'text'`, `'json'` and `undefined`, `exportResults(format)` returns
normally and its only effect is one `console.error` call: no download, no
anchor, no timer. -/
theorem exportResults_unsupported_logs_once (env : Platform) (w : World) (format : JSValue)
    (p : NodeId)
    (htext : format ≠ .string "text") (hjson : format ≠ .string "json")
    (hundef : format ≠ .undefined)
    (hq : w.querySelector .captionResultP = some p) :
    exportResults env w format =
      .ok { w with console := w.console ++
              [{ level := .error, args := [.text "Unsupported export format"] }] } := by
  simp [exportResults, hq, htext, hjson, hundef, World.error]

theorem exportResults_unsupported_logs_once_witness :
    (JSValue.string "xml" ≠ .string "text" ∧ JSValue.string "xml" ≠ .string "json" ∧
      JSValue.string "xml" ≠ .undefined ∧
      samplePage.querySelector .captionResultP = some 3) ∧
    exportResults sampleEnv samplePage (.string "xml") =
      .ok { samplePage with console := samplePage.console ++
              [{ level := .error, args := [.text "Unsupported export format"] }] } :=
  ⟨⟨by decide, by decide, by decide, by decide⟩,
    exportResults_unsupported_logs_once sampleEnv samplePage (.string "xml") 3
      (by decide) (by decide) (by decide) (by decide)⟩

/-- C4 fails as stated: on a page without the result element
`exportResults('xml')` throws a `TypeError` before anything is logged, and
`exportResults(undefined)`, a format value that is neither `'text'` nor
`'json'`, downloads `caption.txt`. -/
theorem exportResults_unsupported_counterexample :
    (JSValue.string "xml" ≠ .string "text" ∧ JSValue.string "xml" ≠ .string "json" ∧
      exportResults sampleEnv blankPage (.string "xml") =
        .error (.typeError "Cannot read properties of null")) ∧
    (JSValue.undefined ≠ .string "text" ∧ JSValue.undefined ≠ .string "json" ∧
      (exportResults sampleEnv samplePage .undefined).map World.downloads =
        .ok [{ filename := "caption.txt", content := "A cat on a mat.", type := "text/plain" }]) :=
  ⟨⟨by decide, by decide, rfl⟩, ⟨by decide, by decide, rfl⟩⟩

/-! ## Clipboard label and pending timers -/

/-- C1 fails on the code: the copy button of the sample page is labelled
`Copy`; a click whose write resolves at time 0 and a second click whose write
resolves at time 1000, while the first restore timer is pending, both show
`Copied!`, but the second `then` callback reads `Copied!` as the text to
restore: the first timer brings `Copy` back at time 2000, the second one
puts `Copied!` again at time 3000, and with no timer left the label stays
`Copied!`. -/
theorem clipboard_reclick_keeps_copied :
    (initClipboard samplePage).label sampleEnv 4 = "Copy" ∧
      firstCopy.label sampleEnv 4 = "Copied!" ∧ secondCopy.label sampleEnv 4 = "Copied!" ∧
      secondCopy.timers.pending.map (fun t => t.fireAt) = [2000, 3000] ∧
      (secondCopy.advance 2000).label sampleEnv 4 = "Copy" ∧
      (secondCopy.advance 3000).timers.pending = [] ∧
      (secondCopy.advance 3000).uncaught = [] ∧
      (secondCopy.advance 3000).label sampleEnv 4 = "Copied!" := by
  decide

/-- C7 fails on the code for the resource-release timer: after
`downloadFile` on the sample page (`exported`) the new anchor is node 6, a
child of the body; when it is taken out of the document before the timer is due, the
callback throws `NotFoundError` from `removeChild` and the object URL is
never revoked.  The label-restore timer of a removed copy button runs
without an exception. -/
theorem release_throws_after_removal :
    ((exported.elems[6]?).map (fun e => e.parentNode) = some (some exported.body) ∧
      exported.timers.pending.map (fun t => (t.fireAt, t.callback))
        = [(100, Callback.release 6 (sampleEnv.objectURL 0))] ∧
      ((exported.detach 6).advance 100).uncaught = [JSError.notFoundError] ∧
      ((exported.detach 6).advance 100).objectURLs.map (fun p => p.1) = [sampleEnv.objectURL 0] ∧
      (exported.advance 100).uncaught = [] ∧ (exported.advance 100).objectURLs = []) ∧
    (((firstCopy.detach 4).advance 2000).uncaught = [] ∧
      ((firstCopy.detach 4).advance 2000).label sampleEnv 4 = "Copy") := by
  decide

/-! ## Binders on a page without their targets -/

/-- C8: when a binder's selectors match nothing, the binder leaves the
document as it is and binds no listener to an element.  `initTooltips` and
`initClipboard` change nothing at all; `setupEventHandlers` only adds the
resize listener of the window; `initAnalytics` only logs the page view.  The
binders are total functions on pages: none of them can throw. -/
theorem binders_ignore_missing_targets (w : World) :
    (w.querySelectorAll .dataTooltip = [] → initTooltips w = w) ∧
    (w.querySelectorAll .dataCopy = [] → initClipboard w = w) ∧
    (w.querySelector .stFileUploader = none → w.querySelectorAll .fragmentAnchor = [] →
      setupEventHandlers w =
        { w with listeners := w.listeners ++
            [{ target := .window, type := "resize", handler := .resize }] }) ∧
    (w.querySelector .fileInput = none → w.querySelectorAll .button = [] →
      initAnalytics w =
        { w with console := w.console ++
            [{ level := .log,
               args := [.text "Tracking event: page_view",
                        .record [("page_title", .str w.title), ("page_path", .str w.pathname)]] }] }) := by
  refine ⟨?_, ?_, ?_, ?_⟩
  · intro h; simp [initTooltips, h]
  · intro h; simp [initClipboard, h]
  · intro h1 h2; simp [setupEventHandlers, h1, h2, World.addEventListener]
  · intro h1 h2
    have h1' : (trackEvent w "page_view"
        (some [("page_title", .str w.title), ("page_path", .str w.pathname)])).querySelector
          .fileInput = none := h1
    have h2' : (trackEvent w "page_view"
        (some [("page_title", .str w.title), ("page_path", .str w.pathname)])).querySelectorAll
          .button = [] := h2
    simp only [initAnalytics, h1', h2']
    rfl

theorem binders_ignore_missing_targets_witness :
    (blankPage.querySelectorAll .dataTooltip = [] ∧ blankPage.querySelectorAll .dataCopy = [] ∧
      blankPage.querySelector .stFileUploader = none ∧
      blankPage.querySelectorAll .fragmentAnchor = [] ∧
      blankPage.querySelector .fileInput = none ∧ blankPage.querySelectorAll .button = []) ∧
    initTooltips blankPage = blankPage ∧ initClipboard blankPage = blankPage ∧
    setupEventHandlers blankPage =
      { blankPage with listeners := blankPage.listeners ++
          [{ target := .window, type := "resize", handler := .resize }] } ∧
    initAnalytics blankPage =
      { blankPage with console := blankPage.console ++
          [{ level := .log,
             args := [.text "Tracking event: page_view",
                      .record [("page_title", .str blankPage.title),
                               ("page_path", .str blankPage.pathname)]] }] } :=
  ⟨⟨by decide, by decide, by decide, by decide, by decide, by decide⟩,
    (binders_ignore_missing_targets blankPage).1 (by decide),
    (binders_ignore_missing_targets blankPage).2.1 (by decide),
    (binders_ignore_missing_targets blankPage).2.2.1 (by decide) (by decide),
    (binders_ignore_missing_targets blankPage).2.2.2 (by decide) (by decide)⟩

/-! ## Tooltips -/

theorem bindTooltip_eq (w : World) (element : NodeId) :
    bindTooltip w element =
      { w with
        elems := updateAt
          (fun el => { el with childNodes := el.childNodes ++ [.element w.elems.length] }) element
          (w.elems ++
            [tooltipNode ((w.elems[element]?).bind (fun el => el.getAttribute "data-tooltip"))
              element])
        listeners := w.listeners ++ tooltipListeners element w.elems.length } := by
  simp [bindTooltip, World.createElement, World.update, World.appendChild, World.addEventListener,
    updateAt_append_length, tooltipNode, tooltipListeners, World.setTextContent,
    World.replaceChildren, World.orphan]

/-- What binding the tooltips of a list of elements does, as far as the later
steps need it: the listeners, the number of nodes, the new nodes, and the
attributes and the other fixed parts of the old nodes. -/
theorem foldl_bindTooltip (ms : List NodeId) :
    ∀ w : World, (∀ e ∈ ms, e < w.elems.length) →
      (ms.foldl bindTooltip w).listeners = w.listeners ++ tooltipListenersFrom w.elems.length ms ∧
      (ms.foldl bindTooltip w).elems.length = w.elems.length + ms.length ∧
      (∀ i : Nat, i < w.elems.length →
        ((ms.foldl bindTooltip w).elems[i]?).map (fun el => el.attributes)
          = (w.elems[i]?).map (fun el => el.attributes)) ∧
      (∀ i : Nat, i < w.elems.length → i ∉ ms → (ms.foldl bindTooltip w).elems[i]? = w.elems[i]?) ∧
      (∀ (j : Nat) (e : NodeId), ms[j]? = some e →
        (ms.foldl bindTooltip w).elems[w.elems.length + j]? =
          some (tooltipNode ((w.elems[e]?).bind (fun el => el.getAttribute "data-tooltip")) e)) := by
  induction ms with
  | nil =>
    intro w _
    refine ⟨by simp [tooltipListenersFrom], by simp, fun _ _ => rfl, fun _ _ _ => rfl, ?_⟩
    intro j e hj
    simp at hj
  | cons m ms ih =>
    intro w h
    have hm : m < w.elems.length := h m (List.mem_cons_self _ _)
    have hlen : (bindTooltip w m).elems.length = w.elems.length + 1 := by
      rw [bindTooltip_eq]; simp [length_updateAt]
    have hes : ∀ x ∈ ms, x < (bindTooltip w m).elems.length := by
      intro x hx
      rw [hlen]
      exact Nat.lt_succ_of_lt (h x (List.mem_cons_of_mem _ hx))
    have hold : ∀ i : Nat, i < w.elems.length →
        ((bindTooltip w m).elems[i]?).map (fun el => el.attributes)
          = (w.elems[i]?).map (fun el => el.attributes) := by
      intro i hi
      rw [bindTooltip_eq]
      simp only [getElem?_updateAt, List.getElem?_append_left hi]
      split
      · cases w.elems[i]? <;> simp
      · rfl
    have hsame : ∀ i : Nat, i < w.elems.length → i ≠ m →
        (bindTooltip w m).elems[i]? = w.elems[i]? := by
      intro i hi him
      rw [bindTooltip_eq]
      simp only [getElem?_updateAt, List.getElem?_append_left hi]
      rw [if_neg him]
    have hnew : (bindTooltip w m).elems[w.elems.length]? =
        some (tooltipNode ((w.elems[m]?).bind (fun el => el.getAttribute "data-tooltip")) m) := by
      rw [bindTooltip_eq]
      simp only [getElem?_updateAt]
      rw [if_neg (Nat.ne_of_gt hm)]
      simp
    have hnotin : w.elems.length ∉ ms := fun hmem =>
      Nat.lt_irrefl _ (h _ (List.mem_cons_of_mem _ hmem))
    obtain ⟨h1, h2, h3, h3b, h4⟩ := ih (bindTooltip w m) hes
    rw [List.foldl_cons]
    refine ⟨?_, ?_, ?_, ?_, ?_⟩
    · rw [h1, hlen, bindTooltip_eq]
      simp [tooltipListenersFrom]
    · rw [h2, hlen]; simp; omega
    · intro i hi
      rw [h3 i (by rw [hlen]; exact Nat.lt_succ_of_lt hi)]
      exact hold i hi
    · intro i hi hni
      rw [h3b i (by rw [hlen]; exact Nat.lt_succ_of_lt hi)
        (fun hmem => hni (List.mem_cons_of_mem _ hmem))]
      exact hsame i hi (fun him => hni (him ▸ List.mem_cons_self _ _))
    · intro j e hj
      cases j with
      | zero =>
        simp at hj
        subst hj
        rw [Nat.add_zero, h3b w.elems.length (by rw [hlen]; exact Nat.lt_succ_self _) hnotin]
        exact hnew
      | succ j =>
        have hj2 : ms[j]? = some e := by simpa using hj
        have he : e < w.elems.length := h e (List.mem_cons_of_mem _ (List.getElem?_mem hj2))
        have h6 := h4 j e hj2
        rw [hlen] at h6
        have hidx : w.elems.length + 1 + j = w.elems.length + (j + 1) := by omega
        rw [hidx] at h6
        rw [h6]
        have hattr := hold e he
        have hbind : ∀ o : Option Element,
            o.bind (fun el => el.getAttribute "data-tooltip")
              = (o.map (fun el => el.attributes)).bind (fun a => a.lookup "data-tooltip") := by
          intro o; cases o <;> rfl
        rw [hbind, hbind, hattr]

theorem querySelectorAll_lt (w : World) (s : Selector) :
    ∀ e ∈ w.querySelectorAll s, e < w.elems.length := by
  intro e he
  have := (List.mem_filter.mp he).1
  exact List.mem_range.mp this

theorem querySelectorAll_nodup (w : World) (s : Selector) : (w.querySelectorAll s).Nodup :=
  (List.nodup_range _).filter _

theorem initTooltips_listeners (w : World) :
    (initTooltips w).listeners =
      w.listeners ++ tooltipListenersFrom w.elems.length (w.querySelectorAll .dataTooltip) :=
  (foldl_bindTooltip _ w (querySelectorAll_lt w .dataTooltip)).1

theorem initTooltips_length (w : World) :
    (initTooltips w).elems.length = w.elems.length + (w.querySelectorAll .dataTooltip).length :=
  (foldl_bindTooltip _ w (querySelectorAll_lt w .dataTooltip)).2.1

theorem initTooltips_node (w : World) (k : Nat) (e : NodeId)
    (hk : (w.querySelectorAll .dataTooltip)[k]? = some e) :
    (initTooltips w).elems[w.elems.length + k]? =
      some (tooltipNode ((w.elems[e]?).bind (fun el => el.getAttribute "data-tooltip")) e) :=
  (foldl_bindTooltip _ w (querySelectorAll_lt w .dataTooltip)).2.2.2.2 k e hk

theorem dispatchEvent_mouseenter (env : Platform) (w : World) (n : NodeId) (ev : Event) :
    w.dispatchEvent env (.node n) "mouseenter" ev = World.deliver env "mouseenter" ev w (.node n) :=
  rfl

theorem dispatchEvent_mouseleave (env : Platform) (w : World) (n : NodeId) (ev : Event) :
    w.dispatchEvent env (.node n) "mouseleave" ev = World.deliver env "mouseleave" ev w (.node n) :=
  rfl

theorem mem_tooltipListenersFrom (l : Listener) (ms : List NodeId) :
    ∀ n : Nat, l ∈ tooltipListenersFrom n ms ↔
      ∃ (j : Nat) (e : NodeId), ms[j]? = some e ∧ l ∈ tooltipListeners e (n + j) := by
  induction ms with
  | nil => intro n; simp [tooltipListenersFrom]
  | cons m ms ih =>
    intro n
    rw [tooltipListenersFrom, List.mem_append, ih]
    constructor
    · rintro (h | ⟨j, e, hj, hl⟩)
      · exact ⟨0, m, by simp, by simpa using h⟩
      · have hh : n + 1 + j = n + (j + 1) := by omega
        exact ⟨j + 1, e, by simpa using hj, by rw [← hh]; exact hl⟩
    · rintro ⟨j, e, hj, hl⟩
      cases j with
      | zero =>
        left
        simp at hj
        subst hj
        simpa using hl
      | succ j =>
        right
        have hh : n + 1 + j = n + (j + 1) := by omega
        refine ⟨j, e, by simpa using hj, ?_⟩
        rw [hh]
        exact hl

theorem isVisible_addClass (w : World) (t : NodeId) (ht : t < w.elems.length) :
    (w.update t (fun el => el.addClass "visible")).isVisible t = true := by
  obtain ⟨el, hel⟩ : ∃ el, w.elems[t]? = some el := ⟨w.elems[t], List.getElem?_eq_getElem ht⟩
  simp only [World.isVisible, World.update, getElem?_updateAt, if_true, hel, Option.map_some']
  by_cases h : "visible" ∈ el.classList <;> simp [Element.addClass, h]

theorem isVisible_removeClass (w : World) (t : NodeId) :
    (w.update t (fun el => el.removeClass "visible")).isVisible t = false := by
  simp only [World.isVisible, World.update, getElem?_updateAt, if_true]
  cases w.elems[t]? <;> simp [Element.removeClass]

theorem foldl_mouseenter (env : Platform) (target : Target) (ev : Event) (t : NodeId)
    (F : List Listener) :
    ∀ w : World, (∀ l ∈ F, l.handler = .mouseenter t) → t < w.elems.length →
      (F.foldl (World.handle env target ev) w).listeners = w.listeners ∧
      (F.foldl (World.handle env target ev) w).elems.length = w.elems.length ∧
      (F ≠ [] ∨ w.isVisible t = true →
        (F.foldl (World.handle env target ev) w).isVisible t = true) := by
  induction F with
  | nil => intro w _ _; simp
  | cons l ls ih =>
    intro w hF ht
    have hl : World.handle env target ev w l = w.update t (fun el => el.addClass "visible") := by
      simp [World.handle, runHandler, hF l (List.mem_cons_self _ _)]
    have ht2 : t < (w.update t (fun el => el.addClass "visible")).elems.length := by
      simp only [World.update, length_updateAt]; exact ht
    obtain ⟨h1, h2, h3⟩ := ih (w.update t (fun el => el.addClass "visible"))
      (fun x hx => hF x (List.mem_cons_of_mem _ hx)) ht2
    rw [List.foldl_cons, hl]
    refine ⟨h1, ?_, fun _ => h3 (Or.inr (isVisible_addClass w t ht))⟩
    rw [h2]; simp only [World.update, length_updateAt]

theorem foldl_mouseleave (env : Platform) (target : Target) (ev : Event) (t : NodeId)
    (F : List Listener) :
    ∀ w : World, (∀ l ∈ F, l.handler = .mouseleave t) →
      (F.foldl (World.handle env target ev) w).listeners = w.listeners ∧
      (F.foldl (World.handle env target ev) w).elems.length = w.elems.length ∧
      (F ≠ [] ∨ w.isVisible t = false →
        (F.foldl (World.handle env target ev) w).isVisible t = false) := by
  induction F with
  | nil => intro w _; simp
  | cons l ls ih =>
    intro w hF
    have hl : World.handle env target ev w l = w.update t (fun el => el.removeClass "visible") := by
      simp [World.handle, runHandler, hF l (List.mem_cons_self _ _)]
    obtain ⟨h1, h2, h3⟩ := ih (w.update t (fun el => el.removeClass "visible"))
      (fun x hx => hF x (List.mem_cons_of_mem _ hx))
    rw [List.foldl_cons, hl]
    refine ⟨h1, ?_, fun _ => h3 (Or.inr (isVisible_removeClass w t))⟩
    rw [h2]; simp only [World.update, length_updateAt]

theorem dispatch_hover (env : Platform) (w : World) (e t : NodeId) (hb : TooltipBound w e t)
    (h : Hover) :
    TooltipBound (w.dispatchEvent env (.node e) h.type { files := [] }) e t ∧
      (w.dispatchEvent env (.node e) h.type { files := [] }).isVisible t
        = decide (h = .mouseenter) := by
  obtain ⟨hall, ⟨le, hle, hle1, hle2⟩, ⟨ll, hll, hll1, hll2⟩, ht⟩ := hb
  cases h with
  | mouseenter =>
    have hF : ∀ l ∈ w.listeners.filter (fun l => l.target == Target.node e && l.type == "mouseenter"),
        l.handler = .mouseenter t := by
      intro l hl
      have hm := List.mem_filter.mp hl
      have hp : l.target = .node e ∧ l.type = "mouseenter" := by simpa using hm.2
      exact (hall l hm.1 hp.1).1 hp.2
    have hne : w.listeners.filter (fun l => l.target == Target.node e && l.type == "mouseenter") ≠ [] := by
      intro hnil
      have : le ∈ w.listeners.filter (fun l => l.target == Target.node e && l.type == "mouseenter") :=
        List.mem_filter.mpr ⟨hle, by simp [hle1, hle2]⟩
      rw [hnil] at this
      exact List.not_mem_nil _ this
    obtain ⟨h1, h2, h3⟩ := foldl_mouseenter env (.node e) { files := [] } t _ w hF ht
    refine ⟨⟨?_, ?_, ?_, ?_⟩, ?_⟩
    · simp only [Hover.type, dispatchEvent_mouseenter, dispatchEvent_mouseleave, World.deliver, h1]; exact hall
    · simp only [Hover.type, dispatchEvent_mouseenter, dispatchEvent_mouseleave, World.deliver, h1]; exact ⟨le, hle, hle1, hle2⟩
    · simp only [Hover.type, dispatchEvent_mouseenter, dispatchEvent_mouseleave, World.deliver, h1]; exact ⟨ll, hll, hll1, hll2⟩
    · simp only [Hover.type, dispatchEvent_mouseenter, dispatchEvent_mouseleave, World.deliver, h2]; exact ht
    · simp only [Hover.type, dispatchEvent_mouseenter, dispatchEvent_mouseleave, World.deliver]; rw [h3 (Or.inl hne)]; rfl
  | mouseleave =>
    have hF : ∀ l ∈ w.listeners.filter (fun l => l.target == Target.node e && l.type == "mouseleave"),
        l.handler = .mouseleave t := by
      intro l hl
      have hm := List.mem_filter.mp hl
      have hp : l.target = .node e ∧ l.type = "mouseleave" := by simpa using hm.2
      exact (hall l hm.1 hp.1).2 hp.2
    have hne : w.listeners.filter (fun l => l.target == Target.node e && l.type == "mouseleave") ≠ [] := by
      intro hnil
      have : ll ∈ w.listeners.filter (fun l => l.target == Target.node e && l.type == "mouseleave") :=
        List.mem_filter.mpr ⟨hll, by simp [hll1, hll2]⟩
      rw [hnil] at this
      exact List.not_mem_nil _ this
    obtain ⟨h1, h2, h3⟩ := foldl_mouseleave env (.node e) { files := [] } t _ w hF
    refine ⟨⟨?_, ?_, ?_, ?_⟩, ?_⟩
    · simp only [Hover.type, dispatchEvent_mouseenter, dispatchEvent_mouseleave, World.deliver, h1]; exact hall
    · simp only [Hover.type, dispatchEvent_mouseenter, dispatchEvent_mouseleave, World.deliver, h1]; exact ⟨le, hle, hle1, hle2⟩
    · simp only [Hover.type, dispatchEvent_mouseenter, dispatchEvent_mouseleave, World.deliver, h1]; exact ⟨ll, hll, hll1, hll2⟩
    · simp only [Hover.type, dispatchEvent_mouseenter, dispatchEvent_mouseleave, World.deliver, h2]; exact ht
    · simp only [Hover.type, dispatchEvent_mouseenter, dispatchEvent_mouseleave, World.deliver]; rw [h3 (Or.inl hne)]; rfl

theorem hover_isVisible (env : Platform) (e t : NodeId) (evs : List Hover) :
    ∀ w : World, TooltipBound w e t →
      (w.hover env e evs).isVisible t =
        match evs.getLast? with
        | none => w.isVisible t
        | some h => decide (h = .mouseenter) := by
  induction evs with
  | nil => intro w _; rfl
  | cons h hs ih =>
    intro w hb
    obtain ⟨hb2, hv⟩ := dispatch_hover env w e t hb h
    have := ih _ hb2
    simp only [World.hover, List.foldl_cons] at this ⊢
    rw [this]
    cases hs with
    | nil => simpa using hv
    | cons h2 hs2 =>
      simp only [List.getLast?_cons_cons]
      rw [List.getLast?_eq_getLast _ (List.cons_ne_nil h2 hs2)]

theorem initTooltips_bound (w0 : World) (hfresh : w0.listeners = []) (k : Nat) (e : NodeId)
    (hk : (w0.querySelectorAll .dataTooltip)[k]? = some e) :
    TooltipBound (initTooltips w0) e (w0.elems.length + k) := by
  have hklt : k < (w0.querySelectorAll .dataTooltip).length := by
    by_contra hcon
    rw [List.getElem?_eq_none (Nat.le_of_not_lt hcon)] at hk
    exact Option.noConfusion hk
  have hL : (initTooltips w0).listeners
      = tooltipListenersFrom w0.elems.length (w0.querySelectorAll .dataTooltip) := by
    rw [initTooltips_listeners]; simp [hfresh]
  refine ⟨?_, ?_, ?_, ?_⟩
  · intro l hl htarget
    rw [hL, mem_tooltipListenersFrom] at hl
    obtain ⟨j, e2, hj, hmem⟩ := hl
    have he2 : e2 = e := by
      simp only [tooltipListeners, List.mem_cons, List.mem_singleton, List.not_mem_nil,
        or_false] at hmem
      rcases hmem with h | h <;> (rw [h] at htarget; exact Target.node.inj htarget)
    subst he2
    have hjk : k = j :=
      List.getElem?_inj hklt (querySelectorAll_nodup w0 .dataTooltip) (hk.trans hj.symm)
    subst hjk
    simp only [tooltipListeners, List.mem_cons, List.mem_singleton, List.not_mem_nil,
      or_false] at hmem
    rcases hmem with h | h <;> subst h <;> simp
  · refine ⟨{ target := .node e, type := "mouseenter",
              handler := .mouseenter (w0.elems.length + k) }, ?_, rfl, rfl⟩
    rw [hL, mem_tooltipListenersFrom]
    exact ⟨k, e, hk, by simp [tooltipListeners]⟩
  · refine ⟨{ target := .node e, type := "mouseleave",
              handler := .mouseleave (w0.elems.length + k) }, ?_, rfl, rfl⟩
    rw [hL, mem_tooltipListenersFrom]
    exact ⟨k, e, hk, by simp [tooltipListeners]⟩
  · rw [initTooltips_length]
    exact Nat.add_lt_add_left hklt _

/-- C9: on a page on which nothing is bound yet, let `e` be the `k`-th element
carrying `data-tooltip`.  `initTooltips` synthesizes for it the node
`elems.length + k`: a `div` of class `tooltip` only (so not `visible`), child
of `e`, with the attribute value as text.  After any sequence of
`mouseenter` / `mouseleave` events on `e` that node carries the class
`visible` exactly when the sequence is not empty and ends in `mouseenter`. -/
theorem tooltip_visibility_follows_hover (env : Platform) (w0 : World)
    (hfresh : w0.listeners = []) (k : Nat) (e : NodeId)
    (hk : (w0.querySelectorAll .dataTooltip)[k]? = some e) :
    (initTooltips w0).elems[w0.elems.length + k]? =
        some (tooltipNode ((w0.elems[e]?).bind (fun el => el.getAttribute "data-tooltip")) e) ∧
      (initTooltips w0).isVisible (w0.elems.length + k) = false ∧
      ∀ events : List Hover,
        ((initTooltips w0).hover env e events).isVisible (w0.elems.length + k)
          = (events.getLast? == some Hover.mouseenter) := by
  have hnode : (initTooltips w0).elems[w0.elems.length + k]? =
      some (tooltipNode ((w0.elems[e]?).bind (fun el => el.getAttribute "data-tooltip")) e) :=
    initTooltips_node w0 k e hk
  have hvis : (initTooltips w0).isVisible (w0.elems.length + k) = false := by
    simp [World.isVisible, hnode, tooltipNode]
  refine ⟨hnode, hvis, ?_⟩
  intro events
  rw [hover_isVisible env e _ events _ (initTooltips_bound w0 hfresh k e hk)]
  cases hlast : events.getLast? with
  | none => simpa using hvis
  | some h => cases h <;> simp

theorem tooltip_visibility_follows_hover_witness :
    (samplePage.listeners = [] ∧ (samplePage.querySelectorAll .dataTooltip)[0]? = some 5) ∧
    ((initTooltips samplePage).elems[samplePage.elems.length + 0]? =
        some (tooltipNode
          ((samplePage.elems[5]?).bind (fun el => el.getAttribute "data-tooltip")) 5) ∧
      (initTooltips samplePage).isVisible (samplePage.elems.length + 0) = false ∧
      ∀ events : List Hover,
        ((initTooltips samplePage).hover sampleEnv 5 events).isVisible
            (samplePage.elems.length + 0)
          = (events.getLast? == some Hover.mouseenter)) :=
  ⟨⟨by decide, by decide⟩,
    tooltip_visibility_follows_hover sampleEnv samplePage (by decide) 0 5 (by decide)⟩

/-! ## Analytics -/

theorem runHandler_quiet (env : Platform) (target : Target) (ev : Event) (w : World)
    (h : Handler) (hq : (∃ c, h = .copyClick c) ∨ h = .anchorClick) :
    ∀ w2, runHandler env w target ev h = .ok w2 →
      w2.console = w.console ∧ w2.elems = w.elems ∧ w2.listeners = w.listeners := by
  intro w2 heq
  rcases hq with ⟨c, hc⟩ | ha
  · subst hc
    simp only [runHandler] at heq
    split at heq <;> cases heq <;> exact ⟨rfl, rfl, rfl⟩
  · subst ha
    simp only [runHandler] at heq
    split at heq
    · cases heq; exact ⟨rfl, rfl, rfl⟩
    · split at heq
      · cases heq; exact ⟨rfl, rfl, rfl⟩
      · split at heq
        · cases heq
        · cases heq; exact ⟨rfl, rfl, rfl⟩
        · cases heq; exact ⟨rfl, rfl, rfl⟩

theorem handle_quiet (env : Platform) (target : Target) (ev : Event) (w : World) (l : Listener)
    (h : (∃ c, l.handler = .copyClick c) ∨ l.handler = .anchorClick) :
    (World.handle env target ev w l).console = w.console ∧
      (World.handle env target ev w l).elems = w.elems ∧
      (World.handle env target ev w l).listeners = w.listeners := by
  unfold World.handle
  cases hr : runHandler env w target ev l.handler with
  | ok w2 => exact runHandler_quiet env target ev w l.handler h w2 hr
  | error err => exact ⟨rfl, rfl, rfl⟩

theorem foldl_quiet (env : Platform) (target : Target) (ev : Event) (F : List Listener) :
    ∀ w : World, (∀ l ∈ F, (∃ c, l.handler = .copyClick c) ∨ l.handler = .anchorClick) →
      (F.foldl (World.handle env target ev) w).console = w.console ∧
        (F.foldl (World.handle env target ev) w).elems = w.elems ∧
        (F.foldl (World.handle env target ev) w).listeners = w.listeners := by
  induction F with
  | nil => intro w _; simp
  | cons l ls ih =>
    intro w hF
    obtain ⟨h1, h2, h2l⟩ := handle_quiet env target ev w l (hF l (List.mem_cons_self _ _))
    obtain ⟨h3, h4, h4l⟩ := ih (World.handle env target ev w l)
      (fun x hx => hF x (List.mem_cons_of_mem _ hx))
    rw [List.foldl_cons]
    exact ⟨h3.trans h1, h4.trans h2, h4l.trans h2l⟩

theorem filter_buttonListener_of_not_mem (b : NodeId) (bs : List NodeId) (hb : b ∉ bs) :
    (bs.map buttonListener).filter (fun l => l.target == Target.node b && l.type == "click") = [] := by
  induction bs with
  | nil => rfl
  | cons x xs ih =>
    have hx : x ≠ b := fun h => hb (h ▸ List.mem_cons_self _ _)
    have hxs : b ∉ xs := fun h => hb (List.mem_cons_of_mem _ h)
    simp [buttonListener, hx, ih hxs]

theorem filter_buttonListener (b : NodeId) (bs : List NodeId) (hn : bs.Nodup) (hb : b ∈ bs) :
    (bs.map buttonListener).filter (fun l => l.target == Target.node b && l.type == "click")
      = [buttonListener b] := by
  induction bs with
  | nil => exact absurd hb (List.not_mem_nil _)
  | cons x xs ih =>
    have hn2 := List.nodup_cons.mp hn
    by_cases hx : x = b
    · subst hx
      have := filter_buttonListener_of_not_mem x xs hn2.1
      simp [buttonListener] at this ⊢
      exact this
    · have hb2 : b ∈ xs := by
        rcases List.mem_cons.mp hb with h | h
        · exact absurd h.symm hx
        · exact h
      have := ih hn2.2 hb2
      simp [buttonListener, hx] at this ⊢
      exact this

theorem foldl_buttonListener (bs : List NodeId) :
    ∀ w : World,
      bs.foldl (fun w button => w.addEventListener (.node button) "click" (.buttonClick button)) w
        = { w with listeners := w.listeners ++ bs.map buttonListener } := by
  induction bs with
  | nil => intro w; simp
  | cons b bs ih =>
    intro w
    rw [List.foldl_cons, ih]
    simp [World.addEventListener, buttonListener]

theorem initAnalytics_listeners (w0 : World) (hq : ∀ l ∈ w0.listeners, Quiet l) :
    ∃ L0, (∀ l ∈ L0, Quiet l) ∧
      (initAnalytics w0).listeners = L0 ++ (w0.querySelectorAll .button).map buttonListener := by
  cases hf : w0.querySelector .fileInput with
  | none =>
    refine ⟨w0.listeners, hq, ?_⟩
    have h1 : (trackEvent w0 "page_view"
        (some [("page_title", .str w0.title), ("page_path", .str w0.pathname)])).querySelector
          .fileInput = none := hf
    simp only [initAnalytics, h1, foldl_buttonListener]
    rfl
  | some fileInput =>
    refine ⟨w0.listeners ++ [{ target := .node fileInput, type := "change", handler := .fileChange }],
      ?_, ?_⟩
    · intro l hl
      rcases List.mem_append.mp hl with h | h
      · exact hq l h
      · have : l = { target := .node fileInput, type := "change", handler := .fileChange } := by
          simpa using h
        subst this
        intro hc
        have hne : ("change" : String) ≠ "click" := by decide
        exact absurd hc hne
    · have h1 : (trackEvent w0 "page_view"
          (some [("page_title", .str w0.title), ("page_path", .str w0.pathname)])).querySelector
            .fileInput = some fileInput := hf
      simp only [initAnalytics, h1, foldl_buttonListener]
      rfl

theorem buttonClickEntry_congr (env : Platform) (w1 w2 : World) (h : w1.elems = w2.elems)
    (n : NodeId) : w1.buttonClickEntry env n = w2.buttonClickEntry env n := by
  simp only [World.buttonClickEntry, World.textContent, h]

theorem filter_buttonListener_window (bs : List NodeId) :
    (bs.map buttonListener).filter (fun l => l.target == Target.window && l.type == "click") = [] := by
  induction bs with
  | nil => rfl
  | cons x xs ih => simp [buttonListener, ih]

/-- The console calls a click makes when it is delivered at one target of
its path, on a page whose listeners are quiet ones and the analytics
listeners of the buttons `bs`. -/
theorem deliver_click (env : Platform) (ev : Event) (L0 : List Listener) (bs : List NodeId)
    (hL0 : ∀ l ∈ L0, Quiet l) (hn : bs.Nodup) (w : World)
    (hl : w.listeners = L0 ++ bs.map buttonListener) (cur : Target) :
    (World.deliver env "click" ev w cur).listeners = w.listeners ∧
      (World.deliver env "click" ev w cur).elems = w.elems ∧
      (World.deliver env "click" ev w cur).console = w.console ++
        (match cur with
         | .window => []
         | .node n => if n ∈ bs then [w.buttonClickEntry env n] else []) := by
  have hF0 : ∀ l ∈ L0.filter (fun l => l.target == cur && l.type == "click"),
      (∃ c, l.handler = .copyClick c) ∨ l.handler = .anchorClick := by
    intro l hmem
    have hm := List.mem_filter.mp hmem
    have hp : l.target = cur ∧ l.type = "click" := by simpa using hm.2
    exact hL0 l hm.1 hp.2
  obtain ⟨h1, h2, h3⟩ := foldl_quiet env cur ev _ w hF0
  cases cur with
  | window =>
    simp only [World.deliver, hl, List.filter_append, filter_buttonListener_window,
      List.append_nil]
    rw [← hl]
    exact ⟨h3, h2, by simpa using h1⟩
  | node n =>
    by_cases hmem : n ∈ bs
    · simp only [World.deliver, hl, List.filter_append, filter_buttonListener n bs hn hmem,
        List.foldl_append, List.foldl_cons, List.foldl_nil, if_pos hmem]
      rw [← hl]
      refine ⟨?_, ?_, ?_⟩
      · simp only [World.handle, runHandler, buttonListener, trackEvent, World.log]
        exact h3
      · simp only [World.handle, runHandler, buttonListener, trackEvent, World.log]
        exact h2
      · simp only [World.handle, runHandler, buttonListener, trackEvent, World.log, h1,
          World.buttonClickEntry, World.textContent, h2, Option.getD_some]
        rfl
    · simp only [World.deliver, hl, List.filter_append,
        filter_buttonListener_of_not_mem n bs hmem, List.append_nil, if_neg hmem]
      rw [← hl]
      exact ⟨h3, h2, by simpa using h1⟩

/-- The console calls a click makes along a whole path. -/
theorem foldl_deliver_click (env : Platform) (ev : Event) (L0 : List Listener) (bs : List NodeId)
    (hL0 : ∀ l ∈ L0, Quiet l) (hn : bs.Nodup) (w0 : World) (path : List Target) :
    ∀ w : World, w.listeners = L0 ++ bs.map buttonListener → w.elems = w0.elems →
      (path.foldl (World.deliver env "click" ev) w).console = w.console ++
        path.flatMap (fun cur =>
          match cur with
          | .window => []
          | .node n => if n ∈ bs then [w0.buttonClickEntry env n] else []) := by
  induction path with
  | nil => intro w _ _; simp
  | cons cur rest ih =>
    intro w hl he
    obtain ⟨h1, h2, h3⟩ := deliver_click env ev L0 bs hL0 hn w hl cur
    rw [List.foldl_cons, ih _ (h1.trans hl) (h2.trans he), h3, List.flatMap_cons,
      List.append_assoc]
    cases cur with
    | window => rfl
    | node n => simp only [buttonClickEntry_congr env w w0 he]

theorem flatMap_path (env : Platform) (w : World) (bs : List NodeId) (ns : List NodeId) :
    (ns.map Target.node ++ [Target.window]).flatMap (fun cur =>
        match cur with
        | .window => []
        | .node n => if n ∈ bs then [w.buttonClickEntry env n] else [])
      = (ns.filter (fun n => decide (n ∈ bs))).map (w.buttonClickEntry env) := by
  induction ns with
  | nil => rfl
  | cons n ns ih =>
    rw [List.map_cons, List.cons_append, List.flatMap_cons, ih]
    by_cases h : n ∈ bs <;> simp [h]

theorem analytics_click (env : Platform) (w0 : World) (hq : ∀ l ∈ w0.listeners, Quiet l)
    (w : World) (hl : w.listeners = (initAnalytics w0).listeners) (t : NodeId) :
    (w.userClick env t).console = w.console ++
      ((w.path t).filter (fun n => decide (n ∈ w0.querySelectorAll .button))).map
        (w.buttonClickEntry env) := by
  obtain ⟨L0, hL0, hL⟩ := initAnalytics_listeners w0 hq
  have hpath : w.propagationPath (.node t) "click"
      = (w.path t).map Target.node ++ [Target.window] := rfl
  rw [World.userClick, World.dispatchEvent, hpath,
    foldl_deliver_click env _ L0 _ hL0 (querySelectorAll_nodup w0 .button) w _ w (hl.trans hL) rfl,
    flatMap_path]

/-- What `trim` returns is the text without a run of white space at its
start and at its end, and neither starts nor ends with white space. -/
theorem trim_spec (s : String) :
    ∃ pre post : List Char,
      s.data = pre ++ (trim s).data ++ post ∧
      (∀ c ∈ pre, isWhiteSpace c = true) ∧ (∀ c ∈ post, isWhiteSpace c = true) ∧
      (∀ c, (trim s).data.head? = some c → isWhiteSpace c = false) ∧
      (∀ c, (trim s).data.getLast? = some c → isWhiteSpace c = false) := by
  set d := s.data.dropWhile isWhiteSpace with hd
  set r := d.reverse.dropWhile isWhiteSpace with hr
  have htrim : (trim s).data = r.reverse := rfl
  have hsplit1 : s.data = s.data.takeWhile isWhiteSpace ++ d :=
    (List.takeWhile_append_dropWhile isWhiteSpace s.data).symm
  have hsplit2 : d = r.reverse ++ (d.reverse.takeWhile isWhiteSpace).reverse := by
    have h : r.reverse ++ (d.reverse.takeWhile isWhiteSpace).reverse = d := by
      rw [hr, ← List.reverse_append, List.takeWhile_append_dropWhile, List.reverse_reverse]
    exact h.symm
  have hlast : ∀ c, r.reverse.getLast? = some c → isWhiteSpace c = false := by
    intro c hc
    rw [List.getLast?_reverse] at hc
    have := List.head?_dropWhile_not isWhiteSpace d.reverse
    rw [← hr, hc] at this
    simpa using this
  refine ⟨s.data.takeWhile isWhiteSpace, (d.reverse.takeWhile isWhiteSpace).reverse, ?_, ?_, ?_, ?_, ?_⟩
  · rw [htrim, List.append_assoc, ← hsplit2]; exact hsplit1
  · intro c hc; exact List.mem_takeWhile_imp hc
  · intro c hc; exact List.mem_takeWhile_imp (List.mem_reverse.mp hc)
  · intro c hc
    rw [htrim] at hc
    have hdhead : d.head? = some c := by
      rw [hsplit2, List.head?_append, hc]; rfl
    have := List.head?_dropWhile_not isWhiteSpace s.data
    rw [← hd, hdhead] at this
    simpa using this
  · intro c hc
    rw [htrim] at hc
    exact hlast c hc

theorem initTooltips_quiet (w : World) (hq : ∀ l ∈ w.listeners, Quiet l) :
    ∀ l ∈ (initTooltips w).listeners, Quiet l := by
  intro l hl
  rw [initTooltips_listeners] at hl
  rcases List.mem_append.mp hl with h | h
  · exact hq l h
  · obtain ⟨j, e, _, hmem⟩ := (mem_tooltipListenersFrom l _ _).mp h
    simp only [tooltipListeners, List.mem_cons, List.mem_singleton, List.not_mem_nil,
      or_false] at hmem
    intro hc
    rcases hmem with h | h
    · rw [h] at hc
      have hne : ("mouseenter" : String) ≠ "click" := by decide
      exact absurd hc hne
    · rw [h] at hc
      have hne : ("mouseleave" : String) ≠ "click" := by decide
      exact absurd hc hne

theorem foldl_copyClick_quiet (ms : List NodeId) :
    ∀ w : World, (∀ l ∈ w.listeners, Quiet l) →
      ∀ l ∈ (ms.foldl
        (fun w button => w.addEventListener (.node button) "click" (.copyClick button)) w).listeners,
        Quiet l := by
  induction ms with
  | nil => intro w hq; simpa using hq
  | cons m ms ih =>
    intro w hq
    rw [List.foldl_cons]
    apply ih
    intro l hl
    rcases List.mem_append.mp hl with h | h
    · exact hq l h
    · have : l = { target := .node m, type := "click", handler := .copyClick m } := by
        simpa using h
      subst this
      exact fun _ => Or.inl ⟨m, rfl⟩

theorem foldl_anchorClick_quiet (ms : List NodeId) :
    ∀ w : World, (∀ l ∈ w.listeners, Quiet l) →
      ∀ l ∈ (ms.foldl
        (fun w anchor => w.addEventListener (.node anchor) "click" .anchorClick) w).listeners,
        Quiet l := by
  induction ms with
  | nil => intro w hq; simpa using hq
  | cons m ms ih =>
    intro w hq
    rw [List.foldl_cons]
    apply ih
    intro l hl
    rcases List.mem_append.mp hl with h | h
    · exact hq l h
    · have : l = { target := .node m, type := "click", handler := .anchorClick } := by
        simpa using h
      subst this
      exact fun _ => Or.inr rfl

theorem quiet_of_type_ne (target : Target) (type : String) (handler : Handler)
    (h : type ≠ "click") : Quiet { target := target, type := type, handler := handler } :=
  fun hc => absurd hc h

theorem addEventListener_quiet (w : World) (target : Target) (type : String) (handler : Handler)
    (hq : ∀ l ∈ w.listeners, Quiet l)
    (h : Quiet { target := target, type := type, handler := handler }) :
    ∀ l ∈ (w.addEventListener target type handler).listeners, Quiet l := by
  intro l hl
  rcases List.mem_append.mp hl with h1 | h1
  · exact hq l h1
  · have : l = { target := target, type := type, handler := handler } := by simpa using h1
    subst this
    exact h

theorem initApplication_quiet (env : Platform) (w : World) (hq : ∀ l ∈ w.listeners, Quiet l) :
    ∀ l ∈ (initApplication env w).listeners, Quiet l := by
  unfold initApplication initClipboard
  apply foldl_copyClick_quiet
  apply initTooltips_quiet
  split
  · exact hq
  · exact hq

theorem setupEventHandlers_quiet (w : World) (hq : ∀ l ∈ w.listeners, Quiet l) :
    ∀ l ∈ (setupEventHandlers w).listeners, Quiet l := by
  unfold setupEventHandlers
  apply addEventListener_quiet _ _ _ _ _ (quiet_of_type_ne _ _ _ (by decide))
  apply foldl_anchorClick_quiet
  split
  · exact hq
  · apply addEventListener_quiet _ _ _ _ _ (quiet_of_type_ne _ _ _ (by decide))
    apply addEventListener_quiet _ _ _ _ _ (quiet_of_type_ne _ _ _ (by decide))
    exact addEventListener_quiet _ _ _ _ hq (quiet_of_type_ne _ _ _ (by decide))

/-- C10, as amended: let the `DOMContentLoaded` listener run on a page on
which nothing is bound yet.  In any later state of the page (same listeners)
a click on any node makes one console call of
`trackEvent('button_click', ...)` for each button that `initAnalytics` found
among the click target and its ancestors, nearest first, and no other console
call.  Each payload has `button_text` equal to the trimmed `textContent` of
that button, the text of all its descendants, and `button_id` equal to its
id, or `null` when the id is empty.  So a click on a bound button that has
no bound button among its ancestors is tracked exactly once. -/
theorem button_click_tracked_per_button (env : Platform) (page : World)
    (hfresh : page.listeners = []) (w : World)
    (hl : w.listeners = (onDOMContentLoaded env page).listeners) :
    (∀ t : NodeId,
      (w.userClick env t).console = w.console ++
        ((w.path t).filter (fun n => decide (n ∈ boundButtons env page))).map
          (fun b =>
            { level := .log,
              args := [.text "Tracking event: button_click",
                       .record [("button_text", .str (trim (w.textContent env b))),
                                ("button_id",
                                  match w.elems[b]? with
                                  | none => .null
                                  | some el => if el.id = "" then .null else .str el.id)]] })) ∧
      (∀ b ∈ boundButtons env page, (∀ n ∈ w.ancestors b, n ∉ boundButtons env page) →
        (w.userClick env b).console = w.console ++
          [{ level := .log,
             args := [.text "Tracking event: button_click",
                      .record [("button_text", .str (trim (w.textContent env b))),
                               ("button_id",
                                 match w.elems[b]? with
                                 | none => .null
                                 | some el => if el.id = "" then .null else .str el.id)]] }]) := by
  have hq : ∀ l ∈ (setupEventHandlers (initApplication env page)).listeners, Quiet l := by
    apply setupEventHandlers_quiet
    apply initApplication_quiet
    intro l hl
    rw [hfresh] at hl
    exact absurd hl (List.not_mem_nil _)
  have hmain : ∀ t : NodeId,
      (w.userClick env t).console = w.console ++
        ((w.path t).filter (fun n => decide (n ∈ boundButtons env page))).map
          (w.buttonClickEntry env) :=
    fun t => analytics_click env _ hq w hl t
  refine ⟨hmain, ?_⟩
  intro b hb hanc
  rw [hmain b]
  have hfilter : (w.path b).filter (fun n => decide (n ∈ boundButtons env page)) = [b] := by
    rw [World.path, List.filter_cons_of_pos (by simpa using hb)]
    congr 1
    rw [List.filter_eq_nil_iff]
    intro n hn
    simpa using hanc n hn
  rw [hfilter]
  rfl

theorem button_click_tracked_per_button_witness :
    (buttonPage.listeners = [] ∧
      (onDOMContentLoaded sampleEnv buttonPage).listeners
        = (onDOMContentLoaded sampleEnv buttonPage).listeners) ∧
    ((∀ t : NodeId,
      ((onDOMContentLoaded sampleEnv buttonPage).userClick sampleEnv t).console =
        (onDOMContentLoaded sampleEnv buttonPage).console ++
          (((onDOMContentLoaded sampleEnv buttonPage).path t).filter
            (fun n => decide (n ∈ boundButtons sampleEnv buttonPage))).map
            (fun b =>
              { level := .log,
                args := [.text "Tracking event: button_click",
                         .record [("button_text",
                                    .str (trim ((onDOMContentLoaded sampleEnv buttonPage).textContent
                                      sampleEnv b))),
                                  ("button_id",
                                    match (onDOMContentLoaded sampleEnv buttonPage).elems[b]? with
                                    | none => .null
                                    | some el => if el.id = "" then .null else .str el.id)]] })) ∧
      (∀ b ∈ boundButtons sampleEnv buttonPage,
        (∀ n ∈ (onDOMContentLoaded sampleEnv buttonPage).ancestors b,
          n ∉ boundButtons sampleEnv buttonPage) →
        ((onDOMContentLoaded sampleEnv buttonPage).userClick sampleEnv b).console =
          (onDOMContentLoaded sampleEnv buttonPage).console ++
            [{ level := .log,
               args := [.text "Tracking event: button_click",
                        .record [("button_text",
                                   .str (trim ((onDOMContentLoaded sampleEnv buttonPage).textContent
                                     sampleEnv b))),
                                 ("button_id",
                                   match (onDOMContentLoaded sampleEnv buttonPage).elems[b]? with
                                   | none => .null
                                   | some el => if el.id = "" then .null else .str el.id)]] }])) ∧
    (boundButtons sampleEnv buttonPage = [2, 3, 4] ∧
      (onDOMContentLoaded sampleEnv buttonPage).path 5 = [5, 4, 3, 1, 0] ∧
      trim ((onDOMContentLoaded sampleEnv buttonPage).textContent sampleEnv 3) = "Outer  Inner" ∧
      ((onDOMContentLoaded sampleEnv buttonPage).userClick sampleEnv 3).console =
        (onDOMContentLoaded sampleEnv buttonPage).console ++
          [{ level := .log,
             args := [.text "Tracking event: button_click",
                      .record [("button_text", .str "Outer  Inner"),
                               ("button_id", .str "outer")]] }]) :=
  ⟨⟨by decide, rfl⟩,
    button_click_tracked_per_button sampleEnv buttonPage (by decide)
      (onDOMContentLoaded sampleEnv buttonPage) rfl,
    by decide⟩

/-- C10 fails as stated.  On the page `buttonPage` the button `go` shows the
text `Go` and carries a tooltip text: `initTooltips` appends the tooltip node
inside the button, so a click on it is tracked with `button_text` `GoTip`,
not with the visible text `Go`.  And a click on the button inside the button
`outer` bubbles to `outer`: `trackEvent` is called twice for that one click,
for the inner button and for the outer one. -/
theorem button_click_counterexample :
    (2 ∈ boundButtons sampleEnv buttonPage ∧
      ((onDOMContentLoaded sampleEnv buttonPage).userClick sampleEnv 2).console =
        (onDOMContentLoaded sampleEnv buttonPage).console ++
          [{ level := .log,
             args := [.text "Tracking event: button_click",
                      .record [("button_text", .str "GoTip"), ("button_id", .str "go")]] }] ∧
      trim ((onDOMContentLoaded sampleEnv buttonPage).visibleText sampleEnv 2) = "Go") ∧
    (4 ∈ boundButtons sampleEnv buttonPage ∧
      ((onDOMContentLoaded sampleEnv buttonPage).userClick sampleEnv 4).console =
        (onDOMContentLoaded sampleEnv buttonPage).console ++
          [{ level := .log,
             args := [.text "Tracking event: button_click",
                      .record [("button_text", .str "Inner"), ("button_id", .null)]] },
           { level := .log,
             args := [.text "Tracking event: button_click",
                      .record [("button_text", .str "Outer  Inner"),
                               ("button_id", .str "outer")]] }]) := by
  decide

end ImageCaptioning
